import Mathlib

/-!
Verification of the blockhost-common privileged-operations daemon and VM ledger.

This file shallowly embeds the relevant parts of the repository:
  - the root-agent daemon (blockhost_root_agent.py): validators, the
    command-building part of the action handlers, the static ACTIONS table,
    message framing and the connection loop;
  - the action plugin modules (root-agent-actions/_common.py, networking.py,
    system.py): the shared address validator and the plugin ACTIONS tables;
  - the client (root_agent.py): the response check of call();
  - the VM ledger (vm_db.py): the database state, its mutators, and the
    atomic-update wrapper.

JSON values are modelled by an inductive type; Python dicts become
insertion-ordered association lists; machine-environment effects (subprocess
execution, the filesystem, wall-clock timestamps) are passed in as explicit
parameters, so every definition is executable.
-/

namespace Blockhost

/-- A JSON value as decoded by json.loads: objects are insertion-ordered
association lists, mirroring Python dicts. -/
inductive JValue where
  | jnull : JValue
  | jbool : Bool → JValue
  | jint : Int → JValue
  | jstr : String → JValue
  | jlist : List JValue → JValue
  | jobj : List (String × JValue) → JValue

mutual

/-- Python repr() of a JSON-decoded value, as used when a value is rendered
inside a container (str() of a list or dict calls repr on the elements).
String quoting is modelled without escape handling, which is exact for
strings free of quotes and control characters. -/
def pyRepr : JValue → String
  | .jnull => "None"
  | .jbool b => cond b "True" "False"
  | .jint n => toString n
  | .jstr s => "\x27" ++ s ++ "\x27"
  | .jlist xs => "[" ++ pyReprSeq xs ++ "]"
  | .jobj kvs => "\x7b" ++ pyReprPairs kvs ++ "\x7d"

/-- Comma-separated reprs of a list's elements. -/
def pyReprSeq : List JValue → String
  | [] => ""
  | [x] => pyRepr x
  | x :: y :: rest => pyRepr x ++ ", " ++ pyReprSeq (y :: rest)

/-- Comma-separated key: value reprs of a dict's items. -/
def pyReprPairs : List (String × JValue) → String
  | [] => ""
  | [(k, v)] => pyRepr (.jstr k) ++ ": " ++ pyRepr v
  | (k, v) :: p :: rest => pyRepr (.jstr k) ++ ": " ++ pyRepr v ++ ", " ++ pyReprPairs (p :: rest)

end

/-- Python str() of a JSON-decoded value (str of a str is the string itself;
containers render via repr of their elements). -/
def pyStr : JValue → String
  | .jnull => "None"
  | .jbool b => cond b "True" "False"
  | .jint n => toString n
  | .jstr s => s
  | .jlist xs => "[" ++ pyReprSeq xs ++ "]"
  | .jobj kvs => "\x7b" ++ pyReprPairs kvs ++ "\x7d"

/-- Python truthiness of a JSON-decoded value. -/
def pyTruthy : JValue → Bool
  | .jnull => false
  | .jbool b => b
  | .jint n => n != 0
  | .jstr s => s != ""
  | .jlist xs => !xs.isEmpty
  | .jobj kvs => !kvs.isEmpty

/-- dict.get(k): first binding of k, or none. -/
def jGet (params : JValue) (k : String) : Option JValue :=
  match params with
  | .jobj kvs => List.lookup k kvs
  | _ => none

/-- dict.get(k, d): first binding of k, or the default d. -/
def jGetD (params : JValue) (k : String) (d : JValue) : JValue :=
  (jGet params k).getD d

/-- Python isinstance(v, int) view: ints are ints; bools are ints with
values 0 and 1; everything else is not an int. -/
def pyToInt : JValue → Option Int
  | .jint n => some n
  | .jbool b => some (cond b 1 0)
  | _ => none

/-! ### Validators (blockhost_root_agent.py, root-agent-actions/_common.py)

Each anchored regex `^...$` is embedded as a character-class matcher.
Python's `$` also matches just before a single trailing newline; matchDollar
reproduces that. -/

/-- str.startswith as character-list comparison (String.startsWith does not
reduce in the kernel). -/
def strStartsWith (s pre : String) : Bool :=
  pre.toList.isPrefixOf s.toList

/-- str.endswith as character-list comparison. -/
def strEndsWith (s suf : String) : Bool :=
  suf.toList.isSuffixOf s.toList

/-- Python re `$` semantics: the core pattern matches the whole string, or the
whole string minus one trailing newline. -/
def matchDollar (core : String → Bool) (s : String) : Bool :=
  core s || (strEndsWith s "\n" && core (s.dropRight 1))

/-- Character class [a-z0-9-] of NAME_RE / SHORT_NAME_RE / STORAGE_RE. -/
def lowerDigitDash (c : Char) : Bool :=
  (c ≥ 'a' && c ≤ 'z') || (c ≥ '0' && c ≤ '9') || c == '-'

/-- Character class [a-zA-Z0-9-] of COMMENT_RE. -/
def alnumDash (c : Char) : Bool :=
  (c ≥ 'a' && c ≤ 'z') || (c ≥ 'A' && c ≤ 'Z') || (c ≥ '0' && c ≤ '9') || c == '-'

/-- Character class [0-9a-fA-F]. -/
def hexChar (c : Char) : Bool :=
  (c ≥ '0' && c ≤ '9') || (c ≥ 'a' && c ≤ 'f') || (c ≥ 'A' && c ≤ 'F')

/-- Character class [0-9a-fA-F:] of IPV6_CIDR128_RE. -/
def ipv6Char (c : Char) : Bool :=
  hexChar c || c == ':'

/-- All characters in the class, length between lo and hi inclusive. -/
def classLen (cls : Char → Bool) (lo hi : Nat) (s : String) : Bool :=
  decide (lo ≤ s.toList.length) && decide (s.toList.length ≤ hi) && s.toList.all cls

/-- All characters in the class, length at least one ([class]+). -/
def classPlus (cls : Char → Bool) (s : String) : Bool :=
  decide (1 ≤ s.toList.length) && s.toList.all cls

/-- NAME_RE = re.compile(r'^[a-z0-9-]{1,64}$'). -/
def nameRe (s : String) : Bool :=
  matchDollar (classLen lowerDigitDash 1 64) s

/-- SHORT_NAME_RE = re.compile(r'^[a-z0-9-]{1,32}$'). -/
def shortNameRe (s : String) : Bool :=
  matchDollar (classLen lowerDigitDash 1 32) s

/-- STORAGE_RE = re.compile(r'^[a-z0-9-]+$'). -/
def storageRe (s : String) : Bool :=
  matchDollar (classPlus lowerDigitDash) s

/-- ADDRESS_RE = re.compile(r'^0x[0-9a-fA-F]{40}$') — the daemon's own
address pattern (exactly 40 hex digits). -/
def addressRe (s : String) : Bool :=
  matchDollar (fun t => strStartsWith t "0x" && classLen hexChar 40 40 (t.drop 2)) s

/-- COMMENT_RE = re.compile(r'^[a-zA-Z0-9-]+$'). -/
def commentRe (s : String) : Bool :=
  matchDollar (classPlus alnumDash) s

/-- IPV6_CIDR128_RE = re.compile(r'^([0-9a-fA-F:]+)/128$'). -/
def ipv6Cidr128Re (s : String) : Bool :=
  matchDollar (fun t => strEndsWith t "/128" && classPlus ipv6Char (t.dropRight 4)) s

/-- ALLOWED_ROUTE_DEVS of the daemon (frozenset containing only vmbr0). -/
def ALLOWED_ROUTE_DEVS : List String := ["vmbr0"]

/-- The daemon's string validators, collected: a request string "passed a
validator" when at least one of them accepts it. -/
def passesAnyValidator (s : String) : Bool :=
  nameRe s || shortNameRe s || storageRe s || addressRe s || commentRe s ||
    ipv6Cidr128Re s || ALLOWED_ROUTE_DEVS.contains s

/-! ### Shared address validator (root-agent-actions/_common.py) -/

/-- Hex arm of _common.py: re.compile(r'^0x[0-9a-fA-F]{40,128}$'). -/
def hexAddressRe (s : String) : Bool :=
  matchDollar (fun t => strStartsWith t "0x" && classLen hexChar 40 128 (t.drop 2)) s

/-- Character class [a-z] (bech32 hrp head). -/
def bech32HrpChar (c : Char) : Bool :=
  c ≥ 'a' && c ≤ 'z'

/-- Character class [a-z0-9] (bech32 hrp tail). -/
def bech32MidChar (c : Char) : Bool :=
  (c ≥ 'a' && c ≤ 'z') || (c ≥ '0' && c ≤ '9')

/-- Character class [02-9ac-hj-np-z] (bech32 data, excluding 1 b i o). -/
def bech32DataChar (c : Char) : Bool :=
  (c ≥ '0' && c ≤ '9' && c != '1') ||
    (c ≥ 'a' && c ≤ 'z' && c != 'b' && c != 'i' && c != 'o')

/-- Core of _BECH32_ADDRESS_RE = r'^[a-z][a-z0-9]{0,9}1[02-9ac-hj-np-z]{39,90}$':
a match exists iff some split head/mid/separator 1/data satisfies the
class-and-length constraints. -/
def bech32Core (s : String) : Bool :=
  match s.toList with
  | [] => false
  | c0 :: rest =>
    bech32HrpChar c0 &&
      (List.range 10).any (fun k =>
        decide (k ≤ rest.length) &&
        (rest.take k).all bech32MidChar &&
        (match rest.drop k with
         | [] => false
         | sep :: data =>
           sep == '1' && decide (39 ≤ data.length) && decide (data.length ≤ 90) &&
             data.all bech32DataChar))

/-- _BECH32_ADDRESS_RE with Python match semantics. -/
def bech32Re (s : String) : Bool :=
  matchDollar bech32Core s

/-- is_valid_address of _common.py: a non-empty string matching the hex or
the bech32 pattern. -/
def is_valid_address (addr : JValue) : Bool :=
  match addr with
  | .jstr s => s != "" && (hexAddressRe s || bech32Re s)
  | _ => false

/-! ### Action handlers (blockhost_root_agent.py)

Each handler is embedded up to the point where it hands an argv vector to the
subprocess runner: the embedding returns either the validation error string of
the handler's early return (or of the exception it raises) or the fully built
argv. -/

/-- QM_SET_ALLOWED_KEYS of the daemon. -/
def QM_SET_ALLOWED_KEYS : List String :=
  ["scsi0", "boot", "ide2", "agent", "serial0", "vga",
   "net0", "memory", "cores", "name", "ostype", "scsihw"]

/-- QM_CREATE_ALLOWED_ARGS of the daemon. -/
def QM_CREATE_ALLOWED_ARGS : List String :=
  ["--scsi0", "--boot", "--ide2", "--agent", "--serial0", "--vga",
   "--net0", "--memory", "--cores", "--name", "--ostype", "--scsihw",
   "--sockets", "--cpu", "--numa", "--machine", "--bios"]

/-- VIRT_CUSTOMIZE_ALLOWED_OPS of the daemon. -/
def VIRT_CUSTOMIZE_ALLOWED_OPS : List String :=
  ["--install", "--run-command", "--copy-in", "--upload",
   "--chmod", "--mkdir", "--write", "--append-line",
   "--firstboot-command", "--run", "--delete"]

/-- _validate_vmid: int (bools count as ints) in [100, 999999], else
ValueError. -/
def validateVmid (v : JValue) : Except String Int :=
  match pyToInt v with
  | some n =>
    if n < 100 ∨ n > 999999 then .error "vmid must be int 100-999999" else .ok n
  | none => .error "vmid must be int 100-999999"

/-- params['vmid'] followed by _validate_vmid (a missing key raises KeyError,
whose str() is the quoted key). -/
def getVmid (params : JValue) : Except String Int :=
  match jGet params "vmid" with
  | none => .error "\x27vmid\x27"
  | some v => validateVmid v

/-- Loop body of handle_qm_set: every option key must be allow-listed; each
item contributes \[--key, str(value)\] with the value taken as-is from the
request. -/
def qmSetBuild : List (String × JValue) → Except String (List String)
  | [] => .ok []
  | (k, v) :: rest =>
    if k ∈ QM_SET_ALLOWED_KEYS then
      match qmSetBuild rest with
      | .ok xs => .ok (("--" ++ k) :: pyStr v :: xs)
      | .error e => .error e
    else .error ("Disallowed option: " ++ k)

/-- handle_qm_set up to the subprocess call: validates the vmid and the option
keys, then builds argv \[qm, set, vmid, --k1, v1, ...\]. -/
def qmSetCmd (params : JValue) : Except String (List String) :=
  match getVmid params with
  | .error e => .error e
  | .ok vmid =>
    match jGetD params "options" (.jobj []) with
    | .jobj options =>
      match qmSetBuild options with
      | .ok opts => .ok (["qm", "set", toString vmid] ++ opts)
      | .error e => .error e
    | _ => .error "options must be a dict"

/-- While-loop of handle_qm_create: element 0, 2, 4, ... of args must be an
allow-listed --flag; the element after each flag is skipped unchecked. -/
def qmCreateCheckArgs : List JValue → Except String Unit
  | [] => .ok ()
  | a :: rest =>
    let arg := pyStr a
    if !strStartsWith arg "--" then .error ("Unexpected positional arg: " ++ arg)
    else if arg ∈ QM_CREATE_ALLOWED_ARGS then qmCreateCheckArgs (rest.drop 1)
    else .error ("Disallowed arg: " ++ arg)
termination_by xs => xs.length
decreasing_by simp [List.length_drop]; omega

/-- handle_qm_create up to the subprocess call: validates vmid and name,
checks the even-position flags of args, then builds
argv \[qm, create, vmid, --name, name\] ++ str of every args element. -/
def qmCreateCmd (params : JValue) : Except String (List String) :=
  match getVmid params with
  | .error e => .error e
  | .ok vmid =>
    match jGetD params "name" (.jstr "") with
    | .jstr name =>
      if !nameRe name then .error ("Invalid VM name: " ++ name)
      else
        match jGetD params "args" (.jlist []) with
        | .jlist args =>
          match qmCreateCheckArgs args with
          | .ok _ => .ok (["qm", "create", toString vmid, "--name", name] ++ args.map pyStr)
          | .error e => .error e
        | _ => .error "args must be a list"
    | _ => .error "TypeError: expected string or bytes-like object"

/-- Loop of handle_virt_customize over commands: each entry must be a list of
length at least two whose head is an allow-listed op string; the entry's
elements are appended to argv as they came from the request. -/
def virtCustomizeEntries : List JValue → Except String (List JValue)
  | [] => .ok []
  | entry :: rest =>
    match entry with
    | .jlist es =>
      match es with
      | op1 :: _ :: _ =>
        match op1 with
        | .jstr op =>
          if op ∈ VIRT_CUSTOMIZE_ALLOWED_OPS then
            match virtCustomizeEntries rest with
            | .ok xs => .ok (es ++ xs)
            | .error e => .error e
          else .error ("Disallowed virt-customize op: " ++ op)
        | other => .error ("Disallowed virt-customize op: " ++ pyStr other)
      | _ => .error ("Each command must be [op, arg, ...]: " ++ pyStr entry)
    | _ => .error ("Each command must be [op, arg, ...]: " ++ pyStr entry)

/-- handle_virt_customize up to the subprocess call; isfile is the
os.path.isfile oracle. The built argv is a list of raw JSON values because
cmd.extend(entry) appends the request's entry elements unconverted. -/
def virtCustomizeCmd (isfile : String → Bool) (params : JValue) : Except String (List JValue) :=
  match jGetD params "image_path" (.jstr "") with
  | .jstr p =>
    if !(strStartsWith p "/var/lib/blockhost/" || strStartsWith p "/tmp/") then
      .error "image_path must be under /var/lib/blockhost/ or /tmp/"
    else if !isfile p then .error ("Image not found: " ++ p)
    else
      match jGetD params "commands" (.jlist []) with
      | .jlist cmds =>
        if cmds.isEmpty then .error "commands must be a non-empty list"
        else
          match virtCustomizeEntries cmds with
          | .ok es => .ok ([.jstr "virt-customize", .jstr "-a", .jstr p] ++ es)
          | .error e => .error e
      | _ => .error "commands must be a non-empty list"
  | _ => .error "AttributeError: startswith"

/-- Validation loop body of the daemon's handle_addressbook_save for one
addressbook entry: name against SHORT_NAME_RE or NAME_RE, the entry a dict,
its address against the daemon's ADDRESS_RE, and an optional keyfile under
/etc/blockhost/. -/
def addressbookEntryCheck (name : String) (entry : JValue) : Except String Unit :=
  if !(shortNameRe name || nameRe name) then .error ("Invalid entry name: " ++ name)
  else
    match entry with
    | .jobj kvs =>
      match (List.lookup "address" kvs).getD (.jstr "") with
      | .jstr addr =>
        if !addressRe addr then .error ("Invalid address for " ++ name ++ ": " ++ addr)
        else
          match List.lookup "keyfile" kvs with
          | none => .ok ()
          | some kf =>
            if pyTruthy kf then
              match kf with
              | .jstr k =>
                if strStartsWith k "/etc/blockhost/" then .ok ()
                else .error ("keyfile for " ++ name ++ " must be under /etc/blockhost/")
              | _ => .error "AttributeError: startswith"
            else .ok ()
      | _ => .error "TypeError: expected string or bytes-like object"
    | _ => .error ("Entry " ++ name ++ " must be a dict")

/-- The validation loop of handle_addressbook_save over all entries. -/
def addressbookCheckAll : List (String × JValue) → Except String Unit
  | [] => .ok ()
  | (name, entry) :: rest =>
    match addressbookEntryCheck name entry with
    | .ok _ => addressbookCheckAll rest
    | .error e => .error e

/-- The daemon's handle_addressbook_save up to the file write: on success the
returned association list is exactly what is serialized into
/etc/blockhost/addressbook.json; an error reply leaves the file unwritten. -/
def addressbookSave (params : JValue) : Except String (List (String × JValue)) :=
  match jGetD params "entries" (.jobj []) with
  | .jobj entries =>
    match addressbookCheckAll entries with
    | .ok _ => .ok entries
    | .error e => .error e
  | _ => .error "entries must be a dict"

/-! ### Action dispatch (blockhost_root_agent.py ACTIONS, handle_connection) -/

/-- The handlers registered in the daemon's static ACTIONS dict. -/
inductive HandlerId where
  | qmStart | qmStop | qmShutdown | qmDestroy | qmCreate | qmImportdisk
  | qmSet | qmTemplate | ip6RouteAdd | ip6RouteDel | iptablesOpen
  | iptablesClose | virtCustomize | generateWallet | addressbookSaveH
  deriving DecidableEq

/-- The daemon's static ACTIONS table: the only action names it dispatches.
The plugin modules under root-agent-actions/ are never imported by the
daemon, so their extra actions do not appear here. -/
def ACTIONS : List (String × HandlerId) :=
  [("qm-start", .qmStart), ("qm-stop", .qmStop), ("qm-shutdown", .qmShutdown),
   ("qm-destroy", .qmDestroy), ("qm-create", .qmCreate),
   ("qm-importdisk", .qmImportdisk), ("qm-set", .qmSet),
   ("qm-template", .qmTemplate), ("ip6-route-add", .ip6RouteAdd),
   ("ip6-route-del", .ip6RouteDel), ("iptables-open", .iptablesOpen),
   ("iptables-close", .iptablesClose), ("virt-customize", .virtCustomize),
   ("generate-wallet", .generateWallet), ("addressbook-save", .addressbookSaveH)]

/-- The daemon's recognized action names, in table order. -/
def daemonActionNames : List String :=
  ACTIONS.map (fun kv => kv.1)

/-- ACTIONS.get(action). -/
def lookupAction (a : String) : Option HandlerId :=
  List.lookup a ACTIONS

/-- The 17-name action catalog of the specification (section 6). This
definition follows the spec's words, to be compared with the daemon's table. -/
def specActionCatalog : List String :=
  ["qm-start", "qm-stop", "qm-shutdown", "qm-destroy", "qm-create",
   "qm-importdisk", "qm-set", "qm-template", "ip6-route-add", "ip6-route-del",
   "bridge-port-isolate", "iptables-open", "iptables-close", "virt-customize",
   "generate-wallet", "addressbook-save", "broker-renew"]

/-- The ACTIONS dict exported by root-agent-actions/networking.py. -/
def networkingModuleActionNames : List String :=
  ["ip6-route-add", "ip6-route-del", "bridge-port-isolate"]

/-- The ACTIONS dict exported by root-agent-actions/system.py. -/
def systemModuleActionNames : List String :=
  ["iptables-open", "iptables-close", "virt-customize", "generate-wallet",
   "addressbook-save", "broker-renew"]

/-- The reply handle_connection builds when ACTIONS.get(action) is None. -/
def unknownActionReply (a : String) : JValue :=
  .jobj [("ok", .jbool false), ("error", .jstr ("Unknown action: " ++ a))]

/-- Dispatch step of handle_connection on a decoded message: extract action
and params, look the action up in ACTIONS, and either run the handler or
build the unknown-action reply. The handlers argument supplies each concrete
handler's reply (including the exception-to-error mapping around it). -/
def dispatchResponse (handlers : HandlerId → JValue → JValue) (msg : JValue) : JValue :=
  match jGetD msg "action" (.jstr "") with
  | .jstr a =>
    match lookupAction a with
    | none => unknownActionReply a
    | some h => handlers h (jGetD msg "params" (.jobj []))
  | .jlist _ => .jobj [("ok", .jbool false), ("error", .jstr "TypeError: unhashable type")]
  | .jobj _ => .jobj [("ok", .jbool false), ("error", .jstr "TypeError: unhashable type")]
  | v => unknownActionReply (pyStr v)

/-- A request envelope as the client builds it. -/
def mkRequest (a : String) (p : JValue) : JValue :=
  .jobj [("action", .jstr a), ("params", p)]

/-! ### Framing and the connection loop -/

/-- Failures read_message can surface inside handle_connection. -/
inductive ReadErr where
  | tooLarge (n : Nat)
  | incomplete
  | timedOut
  | badJson (emsg : String)

/-- Maximum request payload: 10 MiB. -/
def MAX_MSG_BYTES : Nat := 10 * 1024 * 1024

/-- read_message: after the 4-byte header yields the declared length, a length
over 10 MiB raises ValueError before any payload byte is read; otherwise the
payload is read and decoded (its outcome supplied by the environment). -/
def readMessage (length : Nat) (payload : Except ReadErr JValue) : Except ReadErr JValue :=
  if length > MAX_MSG_BYTES then .error (.tooLarge length) else payload

/-- What the daemon does with one accepted connection. -/
inductive ConnOutcome where
  | replied (response : JValue)
  | closedNoReply

/-- handle_connection: a decoded message is dispatched and the response
written back; IncompleteReadError and TimeoutError close the connection
silently; every other exception (the too-large ValueError, malformed JSON)
falls into the generic except clause, which writes a best-effort
\x7bok: false, error: str(e)\x7d reply before closing. -/
def handleConnection (handlers : HandlerId → JValue → JValue) (length : Nat)
    (payload : Except ReadErr JValue) : ConnOutcome :=
  match readMessage length payload with
  | .ok msg => .replied (dispatchResponse handlers msg)
  | .error .incomplete => .closedNoReply
  | .error .timedOut => .closedNoReply
  | .error (.tooLarge n) =>
    .replied (.jobj [("ok", .jbool false), ("error", .jstr ("Message too large: " ++ toString n))])
  | .error (.badJson e) => .replied (.jobj [("ok", .jbool false), ("error", .jstr e)])

/-! ### Client response check (root_agent.py call) -/

/-- The tail of call() after decoding the reply dict: a falsy or missing ok
raises RootAgentError carrying response.get(error, "Unknown error"); only a
truthy ok lets the decoded dict through. The error payload is the carried
exception argument. -/
def callCheckResponse (resp : List (String × JValue)) : Except JValue (List (String × JValue)) :=
  if pyTruthy ((List.lookup "ok" resp).getD .jnull) then .ok resp
  else .error ((List.lookup "error" resp).getD (.jstr "Unknown error"))

/-! ### VM ledger (vm_db.py)

VMDatabaseBase with the default identity field mapping. Python dicts become
insertion-ordered association lists; timestamps computed from
datetime.now are environmental and enter as opaque string arguments. Each
mutator is the read-modify-write body handed to _atomic_update, returning
either the raised error or the database to be written. -/

/-- VM record status values. -/
inductive VMStatus where
  | active | suspended | destroyed
  deriving DecidableEq, Repr

/-- A VM record as register_vm builds it (deleted optional keys are none). -/
structure VMRec where
  vm_name : String
  vmid : Int
  ip_address : String
  ipv6_address : Option String
  expires_at : String
  owner : String
  status : VMStatus
  created_at : String
  purpose : String
  wallet_address : Option String
  suspended_at : Option String := none
  destroyed_at : Option String := none
  deriving DecidableEq, Repr

/-- NFT token record status values. -/
inductive NFTStatus where
  | reserved | minted | failed
  deriving DecidableEq, Repr

/-- The stored string of an NFT status (used in error messages). -/
def nftStatusStr : NFTStatus → String
  | .reserved => "reserved"
  | .minted => "minted"
  | .failed => "failed"

/-- An NFT token record. Keys of reserved_nft_tokens are str(token_id); since
every key is written as str of an int, they are carried as integers here. -/
structure NFTRec where
  vm_name : String
  status : NFTStatus
  reserved_at : String
  minted_at : Option String := none
  failed_at : Option String := none
  owner_wallet : Option String := none
  deriving DecidableEq, Repr

/-- The ledger file contents. -/
structure DB where
  vms : List (String × VMRec)
  next_vmid : Int
  allocated_ips : List String
  allocated_ipv6 : List String
  reserved_nft_tokens : List (Int × NFTRec)
  deriving DecidableEq, Repr

/-- The initial database seeded on first open: empty collections, next_vmid
from the configured range start (0 when no range is configured). -/
def seededDB (vmidRange : Option (Int × Int)) : DB :=
  { vms := []
    next_vmid := match vmidRange with | some r => r.1 | none => 0
    allocated_ips := []
    allocated_ipv6 := []
    reserved_nft_tokens := [] }

/-- In-place update of the record stored under a key (dict item assignment on
an existing key keeps its position). -/
def updateVM (vms : List (String × VMRec)) (name : String) (f : VMRec → VMRec) :
    List (String × VMRec) :=
  vms.map (fun kv => if kv.1 = name then (kv.1, f kv.2) else kv)

/-- IPv6 side of register_vm: a truthy address not yet tracked is appended
to allocated_ipv6. -/
def addIpv6 (alloc : List String) (ipv6 : Option String) : List String :=
  match ipv6 with
  | some v => if v ≠ "" ∧ v ∉ alloc then alloc ++ [v] else alloc
  | none => alloc

/-- IPv6 side of mark_destroyed: a truthy tracked address is removed from
allocated_ipv6 (first occurrence, as list.remove). -/
def removeIpv6 (alloc : List String) (ipv6 : Option String) : List String :=
  match ipv6 with
  | some v => if v ≠ "" ∧ v ∈ alloc then alloc.erase v else alloc
  | none => alloc

/-- register_vm mutator: refuse an existing name; append the new record;
append the IPv4 to allocated_ips unless present; append a truthy IPv6 to
allocated_ipv6 unless present; bump next_vmid to vmid + 1 when vmid is at
least next_vmid. -/
def registerVmMut (now expiresAt name : String) (vmid : Int) (ip : String)
    (ipv6 : Option String) (owner purpose : String) (wallet : Option String)
    (db : DB) : Except String DB :=
  if (List.lookup name db.vms).isSome then
    .error ("VM \x27" ++ name ++ "\x27 already exists")
  else
    let vm : VMRec :=
      { vm_name := name, vmid := vmid, ip_address := ip, ipv6_address := ipv6,
        expires_at := expiresAt, owner := owner, status := .active,
        created_at := now, purpose := purpose, wallet_address := wallet }
    let ips := if ip ∈ db.allocated_ips then db.allocated_ips
               else db.allocated_ips ++ [ip]
    let ip6s := addIpv6 db.allocated_ipv6 ipv6
    let nv := if vmid ≥ db.next_vmid then vmid + 1 else db.next_vmid
    .ok { db with vms := db.vms ++ [(name, vm)], allocated_ips := ips,
                  allocated_ipv6 := ip6s, next_vmid := nv }

/-- mark_suspended mutator: unconditionally sets status suspended and stamps
suspended_at on any existing record. -/
def markSuspendedMut (now name : String) (db : DB) : Except String DB :=
  if (List.lookup name db.vms).isSome then
    .ok { db with vms := (updateVM db.vms name
            (fun vm => { vm with status := .suspended, suspended_at := some now })) }
  else .error ("VM \x27" ++ name ++ "\x27 not found")

/-- mark_active mutator: unconditionally sets status active, deletes
suspended_at, and overwrites expires_at when a new expiry is given. -/
def markActiveMut (name : String) (newExpiry : Option String) (db : DB) :
    Except String DB :=
  if (List.lookup name db.vms).isSome then
    .ok { db with vms := (updateVM db.vms name
            (fun vm =>
              { vm with status := .active, suspended_at := none,
                        expires_at := (match newExpiry with
                                       | some e => e
                                       | none => vm.expires_at) })) }
  else .error ("VM \x27" ++ name ++ "\x27 not found")

/-- mark_destroyed mutator: unconditionally sets status destroyed, stamps
destroyed_at, and removes the record's truthy IPv4/IPv6 from the allocation
lists when present (list.remove drops the first occurrence). -/
def markDestroyedMut (now name : String) (db : DB) : Except String DB :=
  match List.lookup name db.vms with
  | none => .error ("VM \x27" ++ name ++ "\x27 not found")
  | some vm =>
    let vms2 := updateVM db.vms name
      (fun v => { v with status := .destroyed, destroyed_at := some now })
    let ips := if vm.ip_address ≠ "" ∧ vm.ip_address ∈ db.allocated_ips
               then db.allocated_ips.erase vm.ip_address else db.allocated_ips
    let ip6s := removeIpv6 db.allocated_ipv6 vm.ipv6_address
    .ok { db with vms := vms2, allocated_ips := ips, allocated_ipv6 := ip6s }

/-- allocate_vmid: RuntimeError without a configured range; inside
_atomic_update, hand out next_vmid unless it already exceeds the range end,
then store next_vmid + 1. -/
def allocateVmidMut (vmidRange : Option (Int × Int)) (db : DB) :
    Except String (Int × DB) :=
  match vmidRange with
  | none => .error "vmid_range not configured in db.yaml"
  | some r =>
    if db.next_vmid > r.2 then .error "VMID range exhausted"
    else .ok (db.next_vmid, { db with next_vmid := db.next_vmid + 1 })

/-- Largest existing token id, or -1 (max over int keys with -1 appended). -/
def maxTokenId (toks : List (Int × NFTRec)) : Int :=
  (toks.map (fun kv => kv.1)).foldr max (-1)

/-- Dict item assignment for the token map: replace in place when the key
exists, append otherwise. -/
def setToken (toks : List (Int × NFTRec)) (tid : Int) (rec : NFTRec) :
    List (Int × NFTRec) :=
  if (List.lookup tid toks).isSome then
    toks.map (fun kv => if kv.1 = tid then (kv.1, rec) else kv)
  else toks ++ [(tid, rec)]

/-- reserve_nft_token_id mutator: auto-allocate max + 1 when no id is given;
refuse an existing id whose status is not failed; otherwise overwrite the
slot with a fresh reserved record. -/
def reserveNftMut (now vmName : String) (tokenId : Option Int) (db : DB) :
    Except String (Int × DB) :=
  let tid := match tokenId with
             | some t => t
             | none => maxTokenId db.reserved_nft_tokens + 1
  match List.lookup tid db.reserved_nft_tokens with
  | some existing =>
    if existing.status ≠ .failed then
      .error ("NFT token " ++ toString tid ++ " already reserved (status: " ++
        nftStatusStr existing.status ++ ")")
    else
      .ok (tid, { db with reserved_nft_tokens := (setToken db.reserved_nft_tokens tid
          { vm_name := vmName, status := .reserved, reserved_at := now }) })
  | none =>
    .ok (tid, { db with reserved_nft_tokens := (setToken db.reserved_nft_tokens tid
        { vm_name := vmName, status := .reserved, reserved_at := now }) })

/-- mark_nft_minted mutator: unconditionally sets status minted, records the
owner wallet and stamps minted_at on any existing token. -/
def markNftMintedMut (now : String) (tokenId : Int) (ownerWallet : String)
    (db : DB) : Except String DB :=
  match List.lookup tokenId db.reserved_nft_tokens with
  | none => .error ("NFT token " ++ toString tokenId ++ " not found")
  | some rec =>
    .ok { db with reserved_nft_tokens := (setToken db.reserved_nft_tokens tokenId
        { rec with status := .minted, owner_wallet := some ownerWallet,
                   minted_at := some now }) }

/-- mark_nft_failed mutator: unconditionally sets status failed and stamps
failed_at on any existing token. -/
def markNftFailedMut (now : String) (tokenId : Int) (db : DB) :
    Except String DB :=
  match List.lookup tokenId db.reserved_nft_tokens with
  | none => .error ("NFT token " ++ toString tokenId ++ " not found")
  | some rec =>
    .ok { db with reserved_nft_tokens := (setToken db.reserved_nft_tokens tokenId
        { rec with status := .failed, failed_at := some now }) }

/-- Outcome of one VMDatabase._atomic_update transaction: the advisory lock
is taken and, through the finally clause, released on success and error
alike; the temp-and-rename write happens only when the mutator returns
without raising, so an error leaves the stored database untouched. -/
structure TxResult where
  lockAcquired : Bool
  lockReleased : Bool
  written : Bool
  outcome : Except String Unit
  db : DB

/-- VMDatabase._atomic_update around a mutator. -/
def atomicUpdate (db : DB) (mutator : DB → Except String DB) : TxResult :=
  match mutator db with
  | .ok db2 =>
    { lockAcquired := true, lockReleased := true, written := true,
      outcome := .ok (), db := db2 }
  | .error e =>
    { lockAcquired := true, lockReleased := true, written := false,
      outcome := .error e, db := db }

/-- register_vm as a full transaction. -/
def registerVmTx (now expiresAt name : String) (vmid : Int) (ip : String)
    (ipv6 : Option String) (owner purpose : String) (wallet : Option String)
    (db : DB) : TxResult :=
  atomicUpdate db (registerVmMut now expiresAt name vmid ip ipv6 owner purpose wallet)

/-! ### Ledger operation sequences -/

/-- The ledger operations of the lifecycle claims. register_vm's owner,
purpose and wallet arguments do not influence allocation or status and are
fixed to defaults in a trace step. -/
inductive LOp where
  | reg (now expiresAt name : String) (vmid : Int) (ip : String) (ipv6 : Option String)
  | suspend (now name : String)
  | activate (name : String) (newExpiry : Option String)
  | destroy (now name : String)

/-- One ledger transaction: the database after _atomic_update, which is
unchanged whenever the mutator raised. -/
def stepOp (db : DB) (op : LOp) : DB :=
  match op with
  | .reg now expiresAt name vmid ip ipv6 =>
    (atomicUpdate db (registerVmMut now expiresAt name vmid ip ipv6 "" "" none)).db
  | .suspend now name => (atomicUpdate db (markSuspendedMut now name)).db
  | .activate name newExpiry => (atomicUpdate db (markActiveMut name newExpiry)).db
  | .destroy now name => (atomicUpdate db (markDestroyedMut now name)).db

/-- A sequence of ledger transactions. -/
def runOps (db : DB) (ops : List LOp) : DB :=
  ops.foldl stepOp db

/-- The status stored under a name, if any. -/
def statusOf (db : DB) (name : String) : Option VMStatus :=
  (List.lookup name db.vms).map (fun vm => vm.status)

/-- NFT operations of the token lifecycle claim. -/
inductive NOp where
  | reserve (now vmName : String) (tokenId : Option Int)
  | mint (now : String) (tokenId : Int) (ownerWallet : String)
  | fail (now : String) (tokenId : Int)

/-- One NFT transaction (state unchanged when the mutator raised). -/
def stepNft (db : DB) (op : NOp) : DB :=
  match op with
  | .reserve now vmName tokenId =>
    match reserveNftMut now vmName tokenId db with
    | .ok r => r.2
    | .error _ => db
  | .mint now tokenId w =>
    match markNftMintedMut now tokenId w db with
    | .ok d => d
    | .error _ => db
  | .fail now tokenId =>
    match markNftFailedMut now tokenId db with
    | .ok d => d
    | .error _ => db

/-- The status stored under a token id, if any. -/
def nftStatusOf (db : DB) (tid : Int) : Option NFTStatus :=
  (List.lookup tid db.reserved_nft_tokens).map (fun rec => rec.status)

/-! ### Allocation-set views (claim C3) -/

/-- IPv4 addresses of the records whose status is not destroyed. -/
def liveIpsL (vms : List (String × VMRec)) : List String :=
  vms.filterMap (fun kv =>
    match kv.2.status with
    | .destroyed => none
    | _ => some kv.2.ip_address)

/-- IPv6 addresses of the records whose status is not destroyed. -/
def liveIpv6sL (vms : List (String × VMRec)) : List String :=
  vms.filterMap (fun kv =>
    match kv.2.status with
    | .destroyed => none
    | _ => kv.2.ipv6_address)

/-- The set the spec compares allocated_ips with. -/
def liveIps (db : DB) : List String :=
  liveIpsL db.vms

/-- The set the spec compares allocated_ipv6 with. -/
def liveIpv6s (db : DB) : List String :=
  liveIpv6sL db.vms

/-- IPv4 addresses of all records, destroyed ones included. -/
def recordedIps (db : DB) : List String :=
  db.vms.map (fun kv => kv.2.ip_address)

/-- IPv6 addresses of all records, destroyed ones included. -/
def recordedIpv6s (db : DB) : List String :=
  db.vms.filterMap (fun kv => kv.2.ipv6_address)

/-- A register_vm / mark_destroyed sequence whose registrations use nonempty
addresses never recorded before (the freshness discipline under which the
allocation-set equality of C3 holds). -/
def regDistinctOk : DB → List LOp → Bool
  | _, [] => true
  | db, op :: rest =>
    match op with
    | .reg _ _ _ _ ip ipv6 =>
      (decide (ip ≠ "") && decide (ip ∉ recordedIps db) &&
        (match ipv6 with
         | some v => decide (v ≠ "") && decide (v ∉ recordedIpv6s db)
         | none => true)) &&
      regDistinctOk (stepOp db op) rest
    | .destroy _ _ => regDistinctOk (stepOp db op) rest
    | _ => false

/-! ### Association-list lemmas -/

lemma lookup_isSome_iff {α β : Type} [BEq α] [LawfulBEq α] (a : α) (l : List (α × β)) :
    (List.lookup a l).isSome = true ↔ a ∈ l.map (fun kv => kv.1) := by
  induction l with
  | nil => simp [List.lookup]
  | cons kv rest ih =>
    by_cases h : a = kv.1
    · simp [List.lookup, h]
    · have hb : (a == kv.1) = false := by simp [h]
      simp [List.lookup, hb, ih, h]

lemma lookup_append_assoc {α β : Type} [BEq α] (a : α) (l1 l2 : List (α × β)) :
    List.lookup a (l1 ++ l2) =
      (match List.lookup a l1 with
       | some v => some v
       | none => List.lookup a l2) := by
  induction l1 with
  | nil => simp [List.lookup]
  | cons kv rest ih =>
    cases hb : a == kv.1 <;> simp [List.lookup, hb, ih]

lemma map_eq_self_of {α : Type} {l : List α} {f : α → α} (h : ∀ a ∈ l, f a = a) :
    l.map f = l := by
  induction l with
  | nil => rfl
  | cons a rest ih =>
    simp only [List.map_cons, h a (by simp)]
    rw [ih (fun b hb => h b (by simp [hb]))]

lemma lookup_keyReplace {α β : Type} [BEq α] [LawfulBEq α] [DecidableEq α]
    (l : List (α × β)) (k t : α) (f : β → β) :
    List.lookup t (l.map (fun kv => if kv.1 = k then (kv.1, f kv.2) else kv)) =
      (if t = k then (List.lookup t l).map f else List.lookup t l) := by
  induction l with
  | nil => simp [List.lookup]
  | cons kv rest ih =>
    obtain ⟨a, b⟩ := kv
    rw [List.map_cons]
    by_cases hk : a = k
    · rw [if_pos (show (a, b).1 = k from hk)]
      by_cases ht : t = a
      · have hb : (t == a) = true := by simp [ht]
        have htk : t = k := ht.trans hk
        rw [if_pos htk]
        simp [List.lookup, hb]
      · have hb : (t == a) = false := by simp [ht]
        have htk : ¬t = k := fun h2 => ht (h2.trans hk.symm)
        simp [List.lookup, hb, ih, htk]
    · rw [if_neg (show ¬(a, b).1 = k from hk)]
      by_cases ht : t = a
      · have hb : (t == a) = true := by simp [ht]
        have htk : ¬t = k := fun h2 => hk (ht.symm.trans h2)
        simp [List.lookup, hb, htk]
      · have hb : (t == a) = false := by simp [ht]
        simp [List.lookup, hb, ih]

lemma lookup_updateVM (vms : List (String × VMRec)) (name m : String) (f : VMRec → VMRec) :
    List.lookup m (updateVM vms name f) =
      (if m = name then (List.lookup m vms).map f else List.lookup m vms) := by
  simpa [updateVM] using lookup_keyReplace vms name m f

lemma lookup_setToken (toks : List (Int × NFTRec)) (tid t : Int) (rec : NFTRec) :
    List.lookup t (setToken toks tid rec) =
      (if t = tid then some rec else List.lookup t toks) := by
  unfold setToken
  by_cases hs : (List.lookup tid toks).isSome = true
  · rw [if_pos hs]
    have h := lookup_keyReplace toks tid t (fun _ => rec)
    by_cases ht : t = tid
    · subst ht
      obtain ⟨v, hv⟩ := Option.isSome_iff_exists.mp hs
      simp only [if_pos rfl] at h
      rw [h, hv]
      simp
    · simp only [if_neg ht] at h
      rw [h, if_neg ht]
  · rw [if_neg hs]
    rw [lookup_append_assoc]
    by_cases ht : t = tid
    · subst ht
      have : List.lookup t toks = none := by
        cases h : List.lookup t toks
        · rfl
        · rw [h] at hs; simp at hs
      rw [this, if_pos rfl]
      simp [List.lookup]
    · have hb : (t == tid) = false := by simp [ht]
      cases h : List.lookup t toks <;> simp [h, List.lookup, hb, ht]

lemma lookup_decomp {β : Type} (name : String) (l : List (String × β)) (v : β)
    (h : List.lookup name l = some v) :
    ∃ pre post, l = pre ++ (name, v) :: post ∧ ∀ kv ∈ pre, kv.1 ≠ name := by
  induction l with
  | nil => simp [List.lookup] at h
  | cons kv rest ih =>
    obtain ⟨k1, v1⟩ := kv
    by_cases hk : name = k1
    · have hb : (name == k1) = true := by simp [hk]
      have hv : v1 = v := by
        simp [List.lookup, hb] at h
        exact h
      refine ⟨[], rest, ?_, by simp⟩
      simp [hk, hv]
    · have hb : (name == k1) = false := by simp [hk]
      simp only [List.lookup, hb] at h
      obtain ⟨pre, post, heq, hpre⟩ := ih h
      refine ⟨(k1, v1) :: pre, post, by simp [heq], ?_⟩
      intro kv2 hkv2
      rcases List.mem_cons.mp hkv2 with h1 | h2
      · subst h1; exact fun hc => hk hc.symm
      · exact hpre kv2 h2

lemma updateVM_decomp {pre post : List (String × VMRec)} {name : String} {v : VMRec}
    (f : VMRec → VMRec)
    (hpre : ∀ kv ∈ pre, kv.1 ≠ name) (hpost : ∀ kv ∈ post, kv.1 ≠ name) :
    updateVM (pre ++ (name, v) :: post) name f = pre ++ (name, f v) :: post := by
  unfold updateVM
  rw [List.map_append, List.map_cons]
  have h1 : pre.map (fun kv => if kv.1 = name then (kv.1, f kv.2) else kv) = pre :=
    map_eq_self_of (fun kv hkv => by rw [if_neg (hpre kv hkv)])
  have h2 : post.map (fun kv => if kv.1 = name then (kv.1, f kv.2) else kv) = post :=
    map_eq_self_of (fun kv hkv => by rw [if_neg (hpost kv hkv)])
  rw [h1, h2]
  simp

lemma mem_of_containsTrue {α : Type} [BEq α] [LawfulBEq α] {l : List α} {a : α}
    (h : l.contains a = true) : a ∈ l := by
  simpa using h

/-! ### Claim C10 -/

/-- C10: the client's call() never returns a reply without a truthy ok key:
a reply whose ok is falsy or missing raises RootAgentError carrying the
reply's error value (the string Unknown error when absent), and the decoded
reply dict is returned exactly when ok is truthy. -/
theorem c10_call_raises_unless_ok :
    (∀ resp r, callCheckResponse resp = .ok r →
      r = resp ∧ pyTruthy ((List.lookup "ok" resp).getD .jnull) = true) ∧
    (∀ resp, pyTruthy ((List.lookup "ok" resp).getD .jnull) = false →
      callCheckResponse resp =
        .error ((List.lookup "error" resp).getD (.jstr "Unknown error"))) ∧
    (∀ resp, pyTruthy ((List.lookup "ok" resp).getD .jnull) = true →
      callCheckResponse resp = .ok resp) := by
  refine ⟨?_, ?_, ?_⟩
  · intro resp r h
    by_cases hb : pyTruthy ((List.lookup "ok" resp).getD .jnull) = true
    · simp [callCheckResponse, hb] at h
      exact ⟨h.symm, hb⟩
    · have hb2 : pyTruthy ((List.lookup "ok" resp).getD .jnull) = false := by
        revert hb
        cases pyTruthy ((List.lookup "ok" resp).getD .jnull) <;> simp
      simp [callCheckResponse, hb2] at h
  · intro resp h
    simp [callCheckResponse, h]
  · intro resp h
    simp [callCheckResponse, h]

/-- Witness for C10: a concrete falsy-ok reply raises with its error string. -/
theorem c10_call_raises_unless_ok_witness :
    callCheckResponse [("ok", .jbool false), ("error", .jstr "boom")] =
      .error (.jstr "boom") :=
  c10_call_raises_unless_ok.2.1 _ (by rfl)

/-! ### Claim C9 -/

/-- C9: register_vm on a name already present in vms fails with the
already-exists error and the ledger is left completely unchanged: nothing is
written, the stored database is as before, and the exclusive lock is
released on the error path. -/
theorem c9_register_existing_unchanged
    (db : DB) (now expiresAt name : String) (vmid : Int) (ip : String)
    (ipv6 : Option String) (owner purpose : String) (wallet : Option String)
    (h : (List.lookup name db.vms).isSome = true) :
    registerVmTx now expiresAt name vmid ip ipv6 owner purpose wallet db =
      { lockAcquired := true, lockReleased := true, written := false,
        outcome := .error ("VM \x27" ++ name ++ "\x27 already exists"), db := db } := by
  simp [registerVmTx, atomicUpdate, registerVmMut, h]

/-- Witness for C9 at a concrete one-VM ledger. -/
theorem c9_register_existing_unchanged_witness :
    registerVmTx "t2" "e2" "vm-a" 101 "10.0.0.2" none "" "" none
        (runOps (seededDB none) [.reg "t1" "e1" "vm-a" 100 "10.0.0.1" none]) =
      { lockAcquired := true, lockReleased := true, written := false,
        outcome := .error ("VM \x27vm-a\x27 already exists"),
        db := runOps (seededDB none) [.reg "t1" "e1" "vm-a" 100 "10.0.0.1" none] } :=
  c9_register_existing_unchanged _ "t2" "e2" "vm-a" 101 "10.0.0.2" none "" "" none (by rfl)

/-! ### Claim C4 -/

/-- C4 counterexample: from the seeded ledger of the one-element range
\[100, 100\], a single successful allocate_vmid returns 100 and stores
next_vmid = 101, which exceeds vmid_range.end = 100 — refuting that the
stored next_vmid never exceeds the range end. -/
theorem c4_counterexample :
    allocateVmidMut (some (100, 100)) (seededDB (some (100, 100))) =
      .ok (100, { vms := [], next_vmid := 101, allocated_ips := [],
                  allocated_ipv6 := [], reserved_nft_tokens := [] }) ∧
    (101 : Int) > 100 :=
  ⟨rfl, by decide⟩

/-- C4 amended: allocate_vmid never allocates beyond the range end — the
returned vmid is the stored next_vmid and is at most vmid_range.end, and the
call fails with the exhaustion error once next_vmid exceeds the end — but
the stored next_vmid itself becomes v + 1 (so end + 1 after the last
allocation), and register_vm raises next_vmid to vmid + 1 without consulting
the range. -/
theorem c4_amended :
    (∀ s e db v db2, allocateVmidMut (some (s, e)) db = .ok (v, db2) →
      v = db.next_vmid ∧ v ≤ e ∧ db2 = { db with next_vmid := v + 1 }) ∧
    (∀ s e db, db.next_vmid > e →
      allocateVmidMut (some (s, e)) db = .error "VMID range exhausted") ∧
    (∀ now expiresAt name vmid ip ipv6 owner purpose wallet db db2,
      registerVmMut now expiresAt name vmid ip ipv6 owner purpose wallet db = .ok db2 →
      db2.next_vmid = (if vmid ≥ db.next_vmid then vmid + 1 else db.next_vmid)) := by
  refine ⟨?_, ?_, ?_⟩
  · intro s e db v db2 h
    simp only [allocateVmidMut] at h
    by_cases hc : db.next_vmid > e
    · rw [if_pos hc] at h
      exact absurd h (by simp)
    · rw [if_neg hc] at h
      simp only [Except.ok.injEq, Prod.mk.injEq] at h
      obtain ⟨h1, h2⟩ := h
      subst h1
      subst h2
      exact ⟨rfl, by omega, rfl⟩
  · intro s e db h
    simp only [allocateVmidMut]
    rw [if_pos h]
  · intro now expiresAt name vmid ip ipv6 owner purpose wallet db db2 h
    simp only [registerVmMut] at h
    by_cases hc : (List.lookup name db.vms).isSome = true
    · rw [if_pos hc] at h
      exact absurd h (by simp)
    · rw [if_neg hc] at h
      simp only [Except.ok.injEq] at h
      subst h
      rfl

/-- Witness for C4 amended at the seeded \[100, 105\] range. -/
theorem c4_amended_witness :
    (100 : Int) = (seededDB (some (100, 105))).next_vmid ∧ (100 : Int) ≤ 105 :=
  have h := c4_amended.1 100 105 (seededDB (some (100, 105))) 100
    { seededDB (some (100, 105)) with next_vmid := 101 } rfl
  ⟨h.1, h.2.1⟩

/-! ### Claim C7 -/

/-- C7 counterexample: a frame declaring 10 MiB + 1 bytes is indeed refused
before dispatch, but the daemon does NOT close without replying — the
too-large ValueError reaches the generic exception clause, which sends
\x7bok: false, error: Message too large: 10485761\x7d before closing. -/
theorem c7_counterexample :
    handleConnection (fun _ _ => .jnull) (MAX_MSG_BYTES + 1) (.ok (.jobj [])) =
      .replied (.jobj [("ok", .jbool false),
        ("error", .jstr "Message too large: 10485761")]) ∧
    handleConnection (fun _ _ => .jnull) (MAX_MSG_BYTES + 1) (.ok (.jobj [])) ≠
      .closedNoReply :=
  ⟨rfl, fun h => ConnOutcome.noConfusion h⟩

/-- C7 amended: a payload of exactly 10 MiB is read and dispatched normally;
a declared length over 10 MiB is refused before the payload is read, but the
connection is closed after a best-effort error reply, not silently. -/
theorem c7_amended :
    (∀ n payload, n ≤ MAX_MSG_BYTES → readMessage n payload = payload) ∧
    (∀ handlers msg, handleConnection handlers MAX_MSG_BYTES (.ok msg) =
      .replied (dispatchResponse handlers msg)) ∧
    (∀ handlers n payload, n > MAX_MSG_BYTES →
      handleConnection handlers n payload =
        .replied (.jobj [("ok", .jbool false),
          ("error", .jstr ("Message too large: " ++ toString n))])) := by
  refine ⟨?_, ?_, ?_⟩
  · intro n payload h
    unfold readMessage
    rw [if_neg (by omega)]
  · intro handlers msg
    rfl
  · intro handlers n payload h
    unfold handleConnection readMessage
    rw [if_pos h]

/-- Witness for C7 amended: a small frame passes the size gate; an oversize
frame draws the too-large error reply. -/
theorem c7_amended_witness :
    readMessage 5 (.ok .jnull) = .ok .jnull ∧
    handleConnection (fun _ _ => .jnull) (MAX_MSG_BYTES + 1) (.ok .jnull) =
      .replied (.jobj [("ok", .jbool false),
        ("error", .jstr ("Message too large: " ++ toString (MAX_MSG_BYTES + 1)))]) :=
  ⟨c7_amended.1 5 (.ok .jnull) (by decide),
   c7_amended.2.2 (fun _ _ => .jnull) (MAX_MSG_BYTES + 1) (.ok .jnull) (by omega)⟩

/-! ### Claim C2 -/

/-- C2 counterexample: bridge-port-isolate and broker-renew belong to the
spec's 17-name catalog and to the plugin modules' ACTIONS tables, yet the
daemon's static ACTIONS has no handler for them; a bridge-port-isolate
request draws the unknown-action reply. -/
theorem c2_counterexample :
    "bridge-port-isolate" ∈ specActionCatalog ∧
    "bridge-port-isolate" ∈ networkingModuleActionNames ∧
    "broker-renew" ∈ specActionCatalog ∧
    "broker-renew" ∈ systemModuleActionNames ∧
    lookupAction "bridge-port-isolate" = none ∧
    lookupAction "broker-renew" = none ∧
    dispatchResponse (fun _ _ => .jnull)
        (mkRequest "bridge-port-isolate" (.jobj [])) =
      unknownActionReply "bridge-port-isolate" :=
  ⟨by decide, by decide, by decide, by decide, rfl, rfl, rfl⟩

lemma lookup_isSomeIffNames (a : String) :
    (lookupAction a).isSome = true ↔ a ∈ daemonActionNames :=
  lookup_isSome_iff a ACTIONS

/-- C2 amended: the daemon recognizes exactly the 15 action names of its
static ACTIONS table — a handler is found iff the action name is in that
table, a found handler is invoked on the request's params, and every other
action name (bridge-port-isolate and broker-renew included) draws
\x7bok: false, error: Unknown action: name\x7d. -/
theorem c2_amended :
    (∀ a, (lookupAction a).isSome = true ↔ a ∈ daemonActionNames) ∧
    (∀ handlers a p, lookupAction a = none →
      dispatchResponse handlers (mkRequest a p) = unknownActionReply a) ∧
    (∀ handlers a p h, lookupAction a = some h →
      dispatchResponse handlers (mkRequest a p) = handlers h p) := by
  refine ⟨?_, ?_, ?_⟩
  · intro a
    exact lookup_isSomeIffNames a
  · intro handlers a p h
    have e : dispatchResponse handlers (mkRequest a p) =
        (match lookupAction a with
         | none => unknownActionReply a
         | some h2 => handlers h2 (jGetD (mkRequest a p) "params" (.jobj []))) := rfl
    rw [e, h]
  · intro handlers a p h hl
    have e : dispatchResponse handlers (mkRequest a p) =
        (match lookupAction a with
         | none => unknownActionReply a
         | some h2 => handlers h2 (jGetD (mkRequest a p) "params" (.jobj []))) := rfl
    rw [e, hl]
    rfl

/-- Witness for C2 amended: qm-set is recognized; an unknown name draws the
unknown-action reply. -/
theorem c2_amended_witness :
    (lookupAction "qm-set").isSome = true ∧
    dispatchResponse (fun _ _ => .jnull) (mkRequest "no-such-thing" (.jobj [])) =
      unknownActionReply "no-such-thing" :=
  ⟨(c2_amended.1 "qm-set").mpr (by decide),
   c2_amended.2.1 (fun _ _ => .jnull) "no-such-thing" (.jobj []) rfl⟩

/-! ### Claim C1 -/

/-- The option part of the qm-set argv: each request item contributes its
allow-listed key as a flag and its value via str(), untouched. -/
def qmSetArgv (options : List (String × JValue)) : List String :=
  options.foldr (fun kv acc => ("--" ++ kv.1) :: pyStr kv.2 :: acc) []

/-- The elements a virt-customize sub-command contributes to argv (the raw
list extended by cmd.extend(entry)). -/
def vcEntryElems : JValue → List JValue
  | .jlist es => es
  | _ => []

/-- Shape accepted for one virt-customize sub-command: a list of length at
least two headed by an allow-listed op string. -/
def vcEntryOk : JValue → Bool
  | .jlist (op1 :: _ :: _) =>
    match op1 with
    | .jstr op => decide (op ∈ VIRT_CUSTOMIZE_ALLOWED_OPS)
    | _ => false
  | _ => false

lemma qmSetBuild_ok :
    ∀ (options : List (String × JValue)) (xs : List String),
      qmSetBuild options = .ok xs →
      xs = qmSetArgv options ∧ ∀ kv ∈ options, kv.1 ∈ QM_SET_ALLOWED_KEYS := by
  intro options
  induction options with
  | nil =>
    intro xs h
    simp only [qmSetBuild, Except.ok.injEq] at h
    subst h
    exact ⟨rfl, by simp⟩
  | cons kv rest ih =>
    obtain ⟨k, v⟩ := kv
    intro xs h
    simp only [qmSetBuild] at h
    by_cases hk : k ∈ QM_SET_ALLOWED_KEYS
    · rw [if_pos hk] at h
      cases hr : qmSetBuild rest with
      | ok ys =>
        rw [hr] at h
        simp only [Except.ok.injEq] at h
        obtain ⟨h1, h2⟩ := ih ys hr
        subst h
        refine ⟨by simp [qmSetArgv, qmSetArgv] at h1 ⊢; simp [h1], ?_⟩
        intro kv2 hkv2
        rcases List.mem_cons.mp hkv2 with h3 | hm
        · subst h3; exact hk
        · exact h2 kv2 hm
      | error e =>
        rw [hr] at h
        exact absurd h (by simp)
    · rw [if_neg hk] at h
      exact absurd h (by simp)

lemma getVmid_ok_bounds {params : JValue} {v : Int} (h : getVmid params = .ok v) :
    100 ≤ v ∧ v ≤ 999999 := by
  cases hj : jGet params "vmid" with
  | none => simp [getVmid, hj] at h
  | some jv =>
    cases hi : pyToInt jv with
    | none => simp [getVmid, validateVmid, hj, hi] at h
    | some n =>
      by_cases hc : n < 100 ∨ n > 999999
      · simp [getVmid, validateVmid, hj, hi, hc] at h
      · simp [getVmid, validateVmid, hj, hi, hc] at h
        push_neg at hc
        omega

lemma qmCreateCheckArgs_even :
    ∀ (n : Nat) (args : List JValue), args.length ≤ n →
      qmCreateCheckArgs args = .ok () →
      ∀ i, i < args.length → i % 2 = 0 →
        pyStr (args.getD i .jnull) ∈ QM_CREATE_ALLOWED_ARGS := by
  intro n
  induction n with
  | zero =>
    intro args hlen h i hi _
    have : args = [] := List.length_eq_zero.mp (Nat.le_zero.mp hlen)
    subst this
    simp at hi
  | succ n ih =>
    intro args hlen h i hi hev
    cases args with
    | nil => simp at hi
    | cons a rest =>
      simp only [qmCreateCheckArgs] at h
      by_cases hs : (!strStartsWith (pyStr a) "--") = true
      · rw [if_pos hs] at h
        exact absurd h (by simp)
      · rw [if_neg hs] at h
        by_cases hmem : pyStr a ∈ QM_CREATE_ALLOWED_ARGS
        · rw [if_pos hmem] at h
          match i, hev with
          | 0, _ => simpa using hmem
          | (i2 + 2), _ =>
            match rest, hi with
            | b :: rest2, hi =>
              have hlen2 : rest2.length ≤ n := by
                simp at hlen
                omega
              have hi2 : i2 < rest2.length := by
                simp at hi
                omega
              have hev2 : i2 % 2 = 0 := by omega
              have hstep : qmCreateCheckArgs rest2 = .ok () := h
              have := ih rest2 hlen2 hstep i2 hi2 hev2
              simpa using this
        · rw [if_neg hmem] at h
          exact absurd h (by simp)

lemma virtCustomizeEntries_ok :
    ∀ (cmds : List JValue) (es : List JValue),
      virtCustomizeEntries cmds = .ok es →
      es = (cmds.map vcEntryElems).flatten ∧ ∀ e ∈ cmds, vcEntryOk e = true := by
  intro cmds
  induction cmds with
  | nil =>
    intro es h
    simp only [virtCustomizeEntries, Except.ok.injEq] at h
    subst h
    exact ⟨by simp, by simp⟩
  | cons entry rest ih =>
    intro es h
    cases entry with
    | jlist es0 =>
      match es0, h with
      | op1 :: b :: tail, h =>
        cases op1 with
        | jstr op =>
          simp only [virtCustomizeEntries] at h
          by_cases hop : op ∈ VIRT_CUSTOMIZE_ALLOWED_OPS
          · rw [if_pos hop] at h
            cases hr : virtCustomizeEntries rest with
            | ok xs =>
              rw [hr] at h
              simp only [Except.ok.injEq] at h
              obtain ⟨h1, h2⟩ := ih xs hr
              subst h
              constructor
              · simp [vcEntryElems, h1]
              · intro e he
                rcases List.mem_cons.mp he with h3 | hm
                · subst h3
                  simp [vcEntryOk, hop]
                · exact h2 e hm
            | error e2 =>
              rw [hr] at h
              exact absurd h (by simp)
          · rw [if_neg hop] at h
            exact absurd h (by simp)
        | jnull => simp [virtCustomizeEntries] at h
        | jbool b2 => simp [virtCustomizeEntries] at h
        | jint n2 => simp [virtCustomizeEntries] at h
        | jlist l2 => simp [virtCustomizeEntries] at h
        | jobj o2 => simp [virtCustomizeEntries] at h
      | [], h => simp [virtCustomizeEntries] at h
      | [x], h => simp [virtCustomizeEntries] at h
    | jnull => simp [virtCustomizeEntries] at h
    | jbool b2 => simp [virtCustomizeEntries] at h
    | jint n2 => simp [virtCustomizeEntries] at h
    | jstr s2 => simp [virtCustomizeEntries] at h
    | jobj o2 => simp [virtCustomizeEntries] at h

/-- C1 counterexample: handle_qm_set accepts a request whose option value is
an arbitrary string — here a shell-looking payload — and places it verbatim
in the argv handed to the runner, although it passes none of the daemon's
validators. -/
theorem c1_counterexample :
    qmSetCmd (.jobj [("vmid", .jint 100),
        ("options", .jobj [("name", .jstr "; rm -rf /")])]) =
      .ok ["qm", "set", "100", "--name", "; rm -rf /"] ∧
    passesAnyValidator "; rm -rf /" = false :=
  ⟨rfl, rfl⟩

/-- C1 amended: in every successfully built argv, the program, subcommand,
vmid and flags are literals or validated values, but the option values of
qm-set, the odd-position elements of qm-create's args list and the trailing
elements of each virt-customize sub-command are passed through from the
request without any validator: qm-set argv is the literals plus str() of the
raw option values under allow-listed keys; qm-create argv appends str() of
every args element while only even positions are checked as allow-listed
flags; virt-customize argv appends each sub-command's raw elements while only
its head op is checked. -/
theorem c1_amended :
    (∀ params vmid options cmd,
      qmSetCmd params = .ok cmd →
      getVmid params = .ok vmid →
      jGetD params "options" (.jobj []) = .jobj options →
        100 ≤ vmid ∧ vmid ≤ 999999 ∧
        (∀ kv ∈ options, kv.1 ∈ QM_SET_ALLOWED_KEYS) ∧
        cmd = ["qm", "set", toString vmid] ++ qmSetArgv options) ∧
    (∀ params vmid name args cmd,
      qmCreateCmd params = .ok cmd →
      getVmid params = .ok vmid →
      jGetD params "name" (.jstr "") = .jstr name →
      jGetD params "args" (.jlist []) = .jlist args →
        nameRe name = true ∧
        (∀ i, i < args.length → i % 2 = 0 →
          pyStr (args.getD i .jnull) ∈ QM_CREATE_ALLOWED_ARGS) ∧
        cmd = ["qm", "create", toString vmid, "--name", name] ++ args.map pyStr) ∧
    (∀ isfile params p cmds cmd,
      virtCustomizeCmd isfile params = .ok cmd →
      jGetD params "image_path" (.jstr "") = .jstr p →
      jGetD params "commands" (.jlist []) = .jlist cmds →
        (strStartsWith p "/var/lib/blockhost/" || strStartsWith p "/tmp/") = true ∧
        isfile p = true ∧
        (∀ e ∈ cmds, vcEntryOk e = true) ∧
        cmd = [.jstr "virt-customize", .jstr "-a", .jstr p] ++
          (cmds.map vcEntryElems).flatten) := by
  refine ⟨?_, ?_, ?_⟩
  · intro params vmid options cmd h hv ho
    obtain ⟨hb1, hb2⟩ := getVmid_ok_bounds hv
    cases hq : qmSetBuild options with
    | ok opts =>
      obtain ⟨h1, h2⟩ := qmSetBuild_ok options opts hq
      simp only [qmSetCmd, hv, ho, hq, Except.ok.injEq] at h
      refine ⟨hb1, hb2, h2, ?_⟩
      rw [← h, h1]
    | error e =>
      simp [qmSetCmd, hv, ho, hq] at h
  · intro params vmid name args cmd h hv hn ha
    by_cases hnr : nameRe name = true
    · cases hc : qmCreateCheckArgs args with
      | ok u =>
        cases u
        simp only [qmCreateCmd, hv, hn, ha, hc, hnr, Bool.not_true, Bool.false_eq_true,
          if_false, Except.ok.injEq] at h
        refine ⟨hnr, ?_, h.symm⟩
        intro i hi hev
        exact qmCreateCheckArgs_even args.length args le_rfl hc i hi hev
      | error e =>
        simp [qmCreateCmd, hv, hn, ha, hc, hnr] at h
    · have hnr2 : nameRe name = false := by
        revert hnr
        cases nameRe name <;> simp
      simp [qmCreateCmd, hv, hn, hnr2] at h
  · intro isfile params p cmds cmd h hp hcm
    by_cases hpre : (strStartsWith p "/var/lib/blockhost/" || strStartsWith p "/tmp/") = true
    · by_cases hf : isfile p = true
      · by_cases hemp : cmds.isEmpty = true
        · simp [virtCustomizeCmd, hp, hcm, hpre, hf, hemp] at h
        · cases hv : virtCustomizeEntries cmds with
          | ok es =>
            obtain ⟨h1, h2⟩ := virtCustomizeEntries_ok cmds es hv
            have hemp2 : cmds.isEmpty = false := by
              revert hemp
              cases cmds.isEmpty <;> simp
            simp only [virtCustomizeCmd, hp, hcm, hpre, hf, hemp2, hv, Bool.not_true,
              Bool.false_eq_true, if_false, Except.ok.injEq] at h
            refine ⟨hpre, hf, h2, ?_⟩
            rw [← h, h1]
          | error e =>
            have hemp2 : cmds.isEmpty = false := by
              revert hemp
              cases cmds.isEmpty <;> simp
            simp [virtCustomizeCmd, hp, hcm, hpre, hf, hemp2, hv] at h
      · have hf2 : isfile p = false := by
          revert hf
          cases isfile p <;> simp
        simp [virtCustomizeCmd, hp, hpre, hf2] at h
    · have hpre2 : (strStartsWith p "/var/lib/blockhost/" || strStartsWith p "/tmp/") = false := by
        revert hpre
        cases strStartsWith p "/var/lib/blockhost/" || strStartsWith p "/tmp/" <;> simp
      simp [virtCustomizeCmd, hp, hpre2] at h

/-- Witness for C1 amended at a concrete qm-set request. -/
theorem c1_amended_witness :
    100 ≤ (100 : Int) ∧
    ["qm", "set", "100", "--memory", "2048"] =
      ["qm", "set", toString (100 : Int)] ++ qmSetArgv [("memory", JValue.jint 2048)] :=
  have h := c1_amended.1
    (.jobj [("vmid", .jint 100), ("options", .jobj [("memory", .jint 2048)])])
    100 [("memory", .jint 2048)] ["qm", "set", "100", "--memory", "2048"] rfl rfl rfl
  ⟨h.1, h.2.2.2⟩

/-! ### Claim C8 -/

lemma addressbookCheckAll_ok :
    ∀ (entries : List (String × JValue)), addressbookCheckAll entries = .ok () →
      ∀ kv ∈ entries, addressbookEntryCheck kv.1 kv.2 = .ok () := by
  intro entries
  induction entries with
  | nil =>
    intro _ kv hkv
    simp at hkv
  | cons kv0 rest ih =>
    obtain ⟨n0, e0⟩ := kv0
    intro h kv hkv
    cases hc : addressbookEntryCheck n0 e0 with
    | ok u =>
      cases u
      simp only [addressbookCheckAll, hc] at h
      rcases List.mem_cons.mp hkv with h3 | hm
      · subst h3
        exact hc
      · exact ih h kv hm
    | error e =>
      simp only [addressbookCheckAll, hc] at h
      exact absurd h (by simp)

lemma classLen_widen {cls : Char → Bool} {t : String}
    (h : classLen cls 40 40 t = true) : classLen cls 40 128 t = true := by
  simp only [classLen, Bool.and_eq_true, decide_eq_true_eq] at h ⊢
  exact ⟨⟨h.1.1, by omega⟩, h.2⟩

/-- C8 counterexample: a bech32 address accepted by the plugin modules'
is_valid_address is rejected by the daemon's dispatched addressbook-save
handler, whose validation error prevents the address book from being
written. -/
theorem c8_counterexample :
    is_valid_address (.jstr "bc1qqqqqqqqqqqqqqqqqqqqqqqqqqqqqqqqqqqqqqq") = true ∧
    addressbookSave (.jobj [("entries", .jobj [("alice", .jobj
        [("address", .jstr "bc1qqqqqqqqqqqqqqqqqqqqqqqqqqqqqqqqqqqqqqq")])])]) =
      .error "Invalid address for alice: bc1qqqqqqqqqqqqqqqqqqqqqqqqqqqqqqqqqqqqqqq" :=
  ⟨rfl, rfl⟩

/-- C8 amended: the daemon's handler accepts an entry's address iff it
matches the daemon's own ADDRESS_RE (0x plus exactly 40 hex digits); any
hex-40 address also passes the plugin modules' hex-or-bech32 validator, but
not conversely, and a successful save writes exactly the validated entries. -/
theorem c8_amended :
    (∀ params entries, addressbookSave params = .ok entries →
      jGetD params "entries" (.jobj []) = .jobj entries ∧
      ∀ kv ∈ entries, addressbookEntryCheck kv.1 kv.2 = .ok ()) ∧
    (∀ nm a, addressbookEntryCheck nm (.jobj [("address", .jstr a)]) = .ok () ↔
      ((shortNameRe nm || nameRe nm) && addressRe a) = true) ∧
    (∀ a, addressRe a = true → is_valid_address (.jstr a) = true) := by
  refine ⟨?_, ?_, ?_⟩
  · intro params entries h
    cases he : jGetD params "entries" (.jobj []) with
    | jobj entries0 =>
      cases hc : addressbookCheckAll entries0 with
      | ok u =>
        cases u
        simp only [addressbookSave, he, hc, Except.ok.injEq] at h
        subst h
        exact ⟨rfl, addressbookCheckAll_ok entries0 hc⟩
      | error e =>
        simp [addressbookSave, he, hc] at h
    | jnull => simp [addressbookSave, he] at h
    | jbool b => simp [addressbookSave, he] at h
    | jint n => simp [addressbookSave, he] at h
    | jstr s => simp [addressbookSave, he] at h
    | jlist l => simp [addressbookSave, he] at h
  · intro nm a
    constructor
    · intro h
      by_cases h1 : (shortNameRe nm || nameRe nm) = true
      · by_cases h2 : addressRe a = true
        · simp [h1, h2]
        · have h2f : addressRe a = false := by
            revert h2
            cases addressRe a <;> simp
          simp [addressbookEntryCheck, List.lookup, h1, h2f] at h
      · have h1f : (shortNameRe nm || nameRe nm) = false := by
          revert h1
          cases shortNameRe nm || nameRe nm <;> simp
        simp [addressbookEntryCheck, h1f] at h
    · intro h
      simp only [Bool.and_eq_true] at h
      obtain ⟨h1, h2⟩ := h
      simp [addressbookEntryCheck, List.lookup, h1, h2]
  · intro a h
    simp only [addressRe, matchDollar, Bool.or_eq_true, Bool.and_eq_true] at h
    have hne : a ≠ "" := by
      rcases h with h | h
      · intro he
        subst he
        exact absurd h.1 (by decide)
      · intro he
        subst he
        exact absurd h.1 (by decide)
    simp only [is_valid_address, Bool.and_eq_true, bne_iff_ne, ne_eq]
    refine ⟨hne, ?_⟩
    simp only [hexAddressRe, matchDollar, Bool.or_eq_true, Bool.and_eq_true]
    left
    rcases h with h | h
    · exact Or.inl ⟨h.1, classLen_widen h.2⟩
    · exact Or.inr ⟨h.1, ⟨h.2.1, classLen_widen h.2.2⟩⟩

/-- Witness for C8 amended: a hex-40 address under a valid entry name is
accepted by the daemon's entry check. -/
theorem c8_amended_witness :
    addressbookEntryCheck "alice"
        (.jobj [("address", .jstr "0xaaaaaaaaaaaaaaaaaaaaaaaaaaaaaaaaaaaaaaaa")]) =
      .ok () :=
  (c8_amended.2.1 "alice" "0xaaaaaaaaaaaaaaaaaaaaaaaaaaaaaaaaaaaaaaaa").mpr (by rfl)

/-! ### Claim C5 -/

lemma lookup_mem {α β : Type} [BEq α] [LawfulBEq α] {k : α} {l : List (α × β)} {v : β}
    (h : List.lookup k l = some v) : (k, v) ∈ l := by
  induction l with
  | nil => simp [List.lookup] at h
  | cons kv rest ih =>
    obtain ⟨a, b⟩ := kv
    by_cases hk : k = a
    · have hb : (k == a) = true := by simp [hk]
      simp only [List.lookup, hb] at h
      simp only [Option.some.injEq] at h
      subst h
      subst hk
      exact List.mem_cons_self _ _
    · have hb : (k == a) = false := by simp [hk]
      simp only [List.lookup, hb] at h
      exact List.mem_cons_of_mem _ (ih h)

lemma lookup_update_other {vms : List (String × VMRec)} {name m : String}
    (f : VMRec → VMRec) (hm : m ≠ name) :
    List.lookup name (updateVM vms m f) = List.lookup name vms := by
  rw [lookup_updateVM, if_neg (fun h => hm h.symm)]

/-- C5 counterexample: a VM destroyed in the ledger changes status again: a
subsequent mark_suspended moves it destroyed → suspended, a transition
outside the claimed DAG. -/
theorem c5_counterexample :
    statusOf (runOps (seededDB none)
        [.reg "t1" "e1" "vm-a" 100 "10.0.0.1" none, .destroy "t2" "vm-a"]) "vm-a" =
      some .destroyed ∧
    statusOf (runOps (seededDB none)
        [.reg "t1" "e1" "vm-a" 100 "10.0.0.1" none, .destroy "t2" "vm-a",
         .suspend "t3" "vm-a"]) "vm-a" =
      some .suspended :=
  ⟨rfl, rfl⟩

/-- C5 amended: mark_suspended, mark_active and mark_destroyed set the named
VM's status unconditionally — whatever the prior status, including destroyed,
so besides the DAG edges the transitions destroyed → suspended and
destroyed → active occur — and no operation changes the status of a VM it
does not name (an existing name cannot be re-registered). The DAG holds only
for sequences that never apply mark_suspended or mark_active to a destroyed
VM. -/
theorem c5_amended :
    (∀ db now name s, statusOf db name = some s →
      statusOf (stepOp db (.suspend now name)) name = some .suspended) ∧
    (∀ db name newExpiry s, statusOf db name = some s →
      statusOf (stepOp db (.activate name newExpiry)) name = some .active) ∧
    (∀ db now name s, statusOf db name = some s →
      statusOf (stepOp db (.destroy now name)) name = some .destroyed) ∧
    (∀ db op name s, statusOf db name = some s →
      (match op with
       | .suspend _ m => m ≠ name
       | .activate m _ => m ≠ name
       | .destroy _ m => m ≠ name
       | .reg _ _ _ _ _ _ => True) →
      statusOf (stepOp db op) name = some s) := by
  have hsome : ∀ (db : DB) (name : String) (s : VMStatus), statusOf db name = some s →
      ∃ vm, List.lookup name db.vms = some vm ∧ vm.status = s := by
    intro db name s h
    unfold statusOf at h
    cases hl : List.lookup name db.vms with
    | none => rw [hl] at h; simp at h
    | some vm =>
      rw [hl] at h
      simp only [Option.map_some', Option.some.injEq] at h
      exact ⟨vm, rfl, h⟩
  refine ⟨?_, ?_, ?_, ?_⟩
  · intro db now name s h
    obtain ⟨vm, hl, _⟩ := hsome db name s h
    have hs : (List.lookup name db.vms).isSome = true := by simp [hl]
    simp only [stepOp, markSuspendedMut, hs, if_true, atomicUpdate, statusOf]
    rw [lookup_updateVM, if_pos rfl, hl]
    rfl
  · intro db name newExpiry s h
    obtain ⟨vm, hl, _⟩ := hsome db name s h
    have hs : (List.lookup name db.vms).isSome = true := by simp [hl]
    simp only [stepOp, markActiveMut, hs, if_true, atomicUpdate, statusOf]
    rw [lookup_updateVM, if_pos rfl, hl]
    rfl
  · intro db now name s h
    obtain ⟨vm, hl, _⟩ := hsome db name s h
    simp only [stepOp, markDestroyedMut, hl, atomicUpdate, statusOf]
    rw [lookup_updateVM, if_pos rfl, hl]
    rfl
  · intro db op name s h hne
    obtain ⟨vm, hl, hst⟩ := hsome db name s h
    cases op with
    | reg now ea n vmid ip ipv6 =>
      by_cases hn : (List.lookup n db.vms).isSome = true
      · simp only [stepOp, registerVmMut, hn, if_true, atomicUpdate]
        exact h
      · have hn2 : (List.lookup n db.vms).isSome = false := by
          revert hn
          cases (List.lookup n db.vms).isSome <;> simp
        simp only [stepOp, registerVmMut, hn2, Bool.false_eq_true, if_false, atomicUpdate,
          statusOf]
        rw [lookup_append_assoc, hl]
        simp [hst]
    | suspend now m =>
      by_cases hm : (List.lookup m db.vms).isSome = true
      · simp only [stepOp, markSuspendedMut, hm, if_true, atomicUpdate, statusOf]
        rw [lookup_update_other _ hne, hl]
        simp [hst]
      · have hm2 : (List.lookup m db.vms).isSome = false := by
          revert hm
          cases (List.lookup m db.vms).isSome <;> simp
        simp only [stepOp, markSuspendedMut, hm2, Bool.false_eq_true, if_false, atomicUpdate]
        exact h
    | activate m newExpiry =>
      by_cases hm : (List.lookup m db.vms).isSome = true
      · simp only [stepOp, markActiveMut, hm, if_true, atomicUpdate, statusOf]
        rw [lookup_update_other _ hne, hl]
        simp [hst]
      · have hm2 : (List.lookup m db.vms).isSome = false := by
          revert hm
          cases (List.lookup m db.vms).isSome <;> simp
        simp only [stepOp, markActiveMut, hm2, Bool.false_eq_true, if_false, atomicUpdate]
        exact h
    | destroy now m =>
      cases hlm : List.lookup m db.vms with
      | none =>
        simp only [stepOp, markDestroyedMut, hlm, atomicUpdate]
        exact h
      | some vm2 =>
        simp only [stepOp, markDestroyedMut, hlm, atomicUpdate, statusOf]
        rw [lookup_update_other _ hne, hl]
        simp [hst]

/-- Witness for C5 amended: a freshly destroyed VM is revived to suspended. -/
theorem c5_amended_witness :
    statusOf (stepOp (runOps (seededDB none)
        [.reg "t1" "e1" "vm-b" 100 "10.0.0.3" none, .destroy "t2" "vm-b"])
        (.suspend "t3" "vm-b")) "vm-b" = some .suspended :=
  c5_amended.1 (runOps (seededDB none)
      [.reg "t1" "e1" "vm-b" 100 "10.0.0.3" none, .destroy "t2" "vm-b"])
    "t3" "vm-b" .destroyed (by rfl)

/-! ### Claim C6 -/

lemma le_maxTokenId (toks : List (Int × NFTRec)) :
    ∀ kv ∈ toks, kv.1 ≤ maxTokenId toks := by
  induction toks with
  | nil =>
    intro kv h
    simp at h
  | cons a rest ih =>
    intro kv h
    rcases List.mem_cons.mp h with h1 | h2
    · subst h1
      simp only [maxTokenId, List.map_cons, List.foldr_cons]
      exact le_max_left _ _
    · have h3 := ih kv h2
      simp only [maxTokenId, List.map_cons, List.foldr_cons]
      exact le_trans h3 (le_max_right _ _)

lemma lookup_maxSucc_none (toks : List (Int × NFTRec)) :
    List.lookup (maxTokenId toks + 1) toks = none := by
  cases hl : List.lookup (maxTokenId toks + 1) toks with
  | none => rfl
  | some v =>
    have h1 := le_maxTokenId toks _ (lookup_mem hl)
    have h2 : maxTokenId toks + 1 ≤ maxTokenId toks := h1
    omega

/-- C6 counterexample: a failed NFT reservation is moved failed → minted by
mark_nft_minted, a transition outside the claimed token DAG. -/
theorem c6_counterexample :
    nftStatusOf (stepNft (stepNft (seededDB none) (.reserve "t1" "vm-a" (some 0)))
        (.fail "t2" 0)) 0 = some .failed ∧
    nftStatusOf (stepNft (stepNft (stepNft (seededDB none)
        (.reserve "t1" "vm-a" (some 0))) (.fail "t2" 0)) (.mint "t3" 0 "0xabc")) 0 =
      some .minted :=
  ⟨rfl, rfl⟩

/-- C6 amended: reserve_nft_token_id overwrites only failed (or absent)
slots, so failed → reserved is the sole overwrite it performs, but
mark_nft_minted and mark_nft_failed set any existing token's status
unconditionally — so failed → minted and minted → failed also occur — and
no operation changes the status of a token it does not address. -/
theorem c6_amended :
    (∀ db now tid w s, nftStatusOf db tid = some s →
      nftStatusOf (stepNft db (.mint now tid w)) tid = some .minted) ∧
    (∀ db now tid s, nftStatusOf db tid = some s →
      nftStatusOf (stepNft db (.fail now tid)) tid = some .failed) ∧
    (∀ db now vn tid, nftStatusOf db tid = some .failed →
      nftStatusOf (stepNft db (.reserve now vn (some tid))) tid = some .reserved) ∧
    (∀ db now vn tid s, nftStatusOf db tid = some s → s ≠ .failed →
      stepNft db (.reserve now vn (some tid)) = db) ∧
    (∀ db op tid s, nftStatusOf db tid = some s →
      (match op with
       | .mint _ t _ => t ≠ tid
       | .fail _ t => t ≠ tid
       | .reserve _ _ (some t) => t ≠ tid
       | .reserve _ _ none => True) →
      nftStatusOf (stepNft db op) tid = some s) := by
  have nsome : ∀ (db : DB) (tid : Int) (s : NFTStatus), nftStatusOf db tid = some s →
      ∃ rec, List.lookup tid db.reserved_nft_tokens = some rec ∧ rec.status = s := by
    intro db tid s h
    unfold nftStatusOf at h
    cases hl : List.lookup tid db.reserved_nft_tokens with
    | none => rw [hl] at h; simp at h
    | some rec =>
      rw [hl] at h
      simp only [Option.map_some', Option.some.injEq] at h
      exact ⟨rec, rfl, h⟩
  refine ⟨?_, ?_, ?_, ?_, ?_⟩
  · intro db now tid w s h
    obtain ⟨rec, hl, _⟩ := nsome db tid s h
    simp only [stepNft, markNftMintedMut, hl, nftStatusOf]
    rw [lookup_setToken, if_pos rfl]
    rfl
  · intro db now tid s h
    obtain ⟨rec, hl, _⟩ := nsome db tid s h
    simp only [stepNft, markNftFailedMut, hl, nftStatusOf]
    rw [lookup_setToken, if_pos rfl]
    rfl
  · intro db now vn tid h
    obtain ⟨rec, hl, hst⟩ := nsome db tid .failed h
    have hnot : ¬(rec.status ≠ NFTStatus.failed) := by simp [hst]
    simp only [stepNft, reserveNftMut, hl, if_neg hnot, nftStatusOf]
    rw [lookup_setToken, if_pos rfl]
    rfl
  · intro db now vn tid s h hs
    obtain ⟨rec, hl, hst⟩ := nsome db tid s h
    have hne2 : rec.status ≠ NFTStatus.failed := by
      rw [hst]
      exact hs
    simp only [stepNft, reserveNftMut, hl, if_pos hne2]
  · intro db op tid s h hne
    obtain ⟨rec, hl, hst⟩ := nsome db tid s h
    cases op with
    | mint now t w =>
      cases hlt : List.lookup t db.reserved_nft_tokens with
      | none =>
        simp only [stepNft, markNftMintedMut, hlt]
        exact h
      | some rec2 =>
        simp only [stepNft, markNftMintedMut, hlt, nftStatusOf]
        rw [lookup_setToken, if_neg (fun hh => hne hh.symm), hl]
        simp [hst]
    | fail now t =>
      cases hlt : List.lookup t db.reserved_nft_tokens with
      | none =>
        simp only [stepNft, markNftFailedMut, hlt]
        exact h
      | some rec2 =>
        simp only [stepNft, markNftFailedMut, hlt, nftStatusOf]
        rw [lookup_setToken, if_neg (fun hh => hne hh.symm), hl]
        simp [hst]
    | reserve now vn tokenId =>
      cases tokenId with
      | some t =>
        cases hlt : List.lookup t db.reserved_nft_tokens with
        | none =>
          simp only [stepNft, reserveNftMut, hlt, nftStatusOf]
          rw [lookup_setToken, if_neg (fun hh => hne hh.symm), hl]
          simp [hst]
        | some e2 =>
          by_cases he2 : e2.status ≠ NFTStatus.failed
          · simp only [stepNft, reserveNftMut, hlt, if_pos he2]
            exact h
          · simp only [stepNft, reserveNftMut, hlt, if_neg he2, nftStatusOf]
            rw [lookup_setToken, if_neg (fun hh => hne hh.symm), hl]
            simp [hst]
      | none =>
        have hnone := lookup_maxSucc_none db.reserved_nft_tokens
        have htid : tid ≠ maxTokenId db.reserved_nft_tokens + 1 := by
          have h1 := le_maxTokenId db.reserved_nft_tokens _ (lookup_mem hl)
          have h2 : tid ≤ maxTokenId db.reserved_nft_tokens := h1
          omega
        simp only [stepNft, reserveNftMut, hnone, nftStatusOf]
        rw [lookup_setToken, if_neg htid, hl]
        simp [hst]

/-- Witness for C6 amended: minting a concrete failed token yields minted. -/
theorem c6_amended_witness :
    nftStatusOf (stepNft (stepNft (stepNft (seededDB none)
        (.reserve "t1" "vm-c" (some 7))) (.fail "t2" 7)) (.mint "t3" 7 "0xdef")) 7 =
      some .minted :=
  c6_amended.1 (stepNft (stepNft (seededDB none) (.reserve "t1" "vm-c" (some 7)))
      (.fail "t2" 7)) "t3" 7 "0xdef" .failed (by rfl)

/-! ### Claim C3 -/

/-- The inductive invariant relating the allocation lists to the VM records:
key and address uniqueness, allocation lists without duplicates, the
allocated-equals-live set equalities, and nonemptiness of stored addresses. -/
structure DbInv (db : DB) : Prop where
  keysND : (db.vms.map (fun kv => kv.1)).Nodup
  ipsND : (recordedIps db).Nodup
  ip6ND : (recordedIpv6s db).Nodup
  allocND : db.allocated_ips.Nodup
  alloc6ND : db.allocated_ipv6.Nodup
  ipEq : ∀ x, x ∈ db.allocated_ips ↔ x ∈ liveIps db
  ip6Eq : ∀ x, x ∈ db.allocated_ipv6 ↔ x ∈ liveIpv6s db
  ipNE : ∀ kv ∈ db.vms, kv.2.ip_address ≠ ""
  ip6NE : ∀ kv ∈ db.vms, ∀ v, kv.2.ipv6_address = some v → v ≠ ""

lemma liveIpsL_subset {vms : List (String × VMRec)} :
    ∀ x ∈ liveIpsL vms, x ∈ vms.map (fun kv => kv.2.ip_address) := by
  intro x hx
  simp only [liveIpsL, List.mem_filterMap] at hx
  obtain ⟨kv, hkv, he⟩ := hx
  cases hs : kv.2.status with
  | destroyed => rw [hs] at he; simp at he
  | active =>
    rw [hs] at he
    simp only [Option.some.injEq] at he
    subst he
    exact List.mem_map_of_mem _ hkv
  | suspended =>
    rw [hs] at he
    simp only [Option.some.injEq] at he
    subst he
    exact List.mem_map_of_mem _ hkv

lemma liveIpv6sL_subset {vms : List (String × VMRec)} :
    ∀ x ∈ liveIpv6sL vms, x ∈ vms.filterMap (fun kv => kv.2.ipv6_address) := by
  intro x hx
  simp only [liveIpv6sL, List.mem_filterMap] at hx
  obtain ⟨kv, hkv, he⟩ := hx
  cases hs : kv.2.status with
  | destroyed => rw [hs] at he; simp at he
  | active =>
    rw [hs] at he
    exact List.mem_filterMap.mpr ⟨kv, hkv, he⟩
  | suspended =>
    rw [hs] at he
    exact List.mem_filterMap.mpr ⟨kv, hkv, he⟩

lemma nodup_append_singleton {α : Type} {l : List α} {a : α}
    (h : l.Nodup) (ha : a ∉ l) : (l ++ [a]).Nodup := by
  simp [List.nodup_append, h, ha]

lemma dbInv_seeded (rng : Option (Int × Int)) : DbInv (seededDB rng) := by
  constructor <;>
    simp [seededDB, recordedIps, recordedIpv6s, liveIps, liveIpv6s, liveIpsL, liveIpv6sL]

lemma dbInv_reg (db : DB) (now ea name : String) (vmid : Int) (ip : String)
    (ipv6 : Option String) (inv : DbInv db)
    (hip : ip ≠ "") (hfresh : ip ∉ recordedIps db)
    (hip6 : ∀ v, ipv6 = some v → v ≠ "" ∧ v ∉ recordedIpv6s db) :
    DbInv (stepOp db (.reg now ea name vmid ip ipv6)) := by
  by_cases hn : (List.lookup name db.vms).isSome = true
  · simp only [stepOp, registerVmMut, hn, if_true, atomicUpdate]
    exact inv
  · have hn2 : (List.lookup name db.vms).isSome = false := by
      revert hn
      cases (List.lookup name db.vms).isSome <;> simp
    have hnm : name ∉ db.vms.map (fun kv => kv.1) := by
      intro hm
      rw [(lookup_isSome_iff name db.vms).mpr hm] at hn2
      exact absurd hn2 (by simp)
    have hipnal : ip ∉ db.allocated_ips := by
      intro hm
      exact hfresh (liveIpsL_subset _ ((inv.ipEq ip).mp hm))
    simp only [stepOp, registerVmMut, hn2, Bool.false_eq_true, if_false, atomicUpdate]
    rw [if_neg hipnal]
    cases ipv6 with
    | none =>
      simp only [addIpv6]
      refine ⟨?_, ?_, ?_, ?_, ?_, ?_, ?_, ?_, ?_⟩
      · simp only [List.map_append, List.map_cons, List.map_nil]
        exact nodup_append_singleton inv.keysND hnm
      · simp only [recordedIps, List.map_append, List.map_cons, List.map_nil]
        exact nodup_append_singleton inv.ipsND hfresh
      · simp only [recordedIpv6s, List.filterMap_append]
        simpa using inv.ip6ND
      · exact nodup_append_singleton inv.allocND hipnal
      · exact inv.alloc6ND
      · intro x
        simp only [liveIps, liveIpsL, List.filterMap_append, List.mem_append,
          List.filterMap_cons]
        have := inv.ipEq x
        simp only [liveIps, liveIpsL] at this
        simp [this]
      · intro x
        simp only [liveIpv6s, liveIpv6sL, List.filterMap_append, List.mem_append,
          List.filterMap_cons]
        have := inv.ip6Eq x
        simp only [liveIpv6s, liveIpv6sL] at this
        simp [this]
      · intro kv hkv
        rcases List.mem_append.mp hkv with hm | hm
        · exact inv.ipNE kv hm
        · simp at hm
          subst hm
          exact hip
      · intro kv hkv v hv
        rcases List.mem_append.mp hkv with hm | hm
        · exact inv.ip6NE kv hm v hv
        · simp at hm
          subst hm
          simp at hv
    | some w =>
      obtain ⟨hw1, hw2⟩ := hip6 w rfl
      have hwnal : w ∉ db.allocated_ipv6 := by
        intro hm
        exact hw2 (liveIpv6sL_subset _ ((inv.ip6Eq w).mp hm))
      have hcond : w ≠ "" ∧ w ∉ db.allocated_ipv6 := ⟨hw1, hwnal⟩
      simp only [addIpv6]
      rw [if_pos hcond]
      refine ⟨?_, ?_, ?_, ?_, ?_, ?_, ?_, ?_, ?_⟩
      · simp only [List.map_append, List.map_cons, List.map_nil]
        exact nodup_append_singleton inv.keysND hnm
      · simp only [recordedIps, List.map_append, List.map_cons, List.map_nil]
        exact nodup_append_singleton inv.ipsND hfresh
      · simp only [recordedIpv6s, List.filterMap_append]
        exact nodup_append_singleton inv.ip6ND hw2
      · exact nodup_append_singleton inv.allocND hipnal
      · exact nodup_append_singleton inv.alloc6ND hwnal
      · intro x
        simp only [liveIps, liveIpsL, List.filterMap_append, List.mem_append,
          List.filterMap_cons]
        have := inv.ipEq x
        simp only [liveIps, liveIpsL] at this
        simp [this]
      · intro x
        simp only [liveIpv6s, liveIpv6sL, List.filterMap_append, List.mem_append,
          List.filterMap_cons]
        have := inv.ip6Eq x
        simp only [liveIpv6s, liveIpv6sL] at this
        simp [this]
      · intro kv hkv
        rcases List.mem_append.mp hkv with hm | hm
        · exact inv.ipNE kv hm
        · simp at hm
          subst hm
          exact hip
      · intro kv hkv v hv
        rcases List.mem_append.mp hkv with hm | hm
        · exact inv.ip6NE kv hm v hv
        · simp at hm
          subst hm
          simp at hv
          subst hv
          exact hw1

lemma map_fst_updateVM (vms : List (String × VMRec)) (name : String)
    (f : VMRec → VMRec) :
    (updateVM vms name f).map (fun kv => kv.1) = vms.map (fun kv => kv.1) := by
  induction vms with
  | nil => rfl
  | cons kv rest ih =>
    by_cases h : kv.1 = name
    · simp only [updateVM, List.map_cons] at ih ⊢
      rw [if_pos h]
      simp [ih]
    · simp only [updateVM, List.map_cons] at ih ⊢
      rw [if_neg h]
      simp [ih]

lemma mem_updateVM {vms : List (String × VMRec)} {name : String}
    {f : VMRec → VMRec} {kv : String × VMRec} (h : kv ∈ updateVM vms name f) :
    ∃ kv0 ∈ vms, kv = kv0 ∨ kv = (kv0.1, f kv0.2) := by
  obtain ⟨kv0, hkv0, hg⟩ := List.mem_map.mp h
  by_cases hc : kv0.1 = name
  · rw [if_pos hc] at hg
    exact ⟨kv0, hkv0, Or.inr hg.symm⟩
  · rw [if_neg hc] at hg
    exact ⟨kv0, hkv0, Or.inl hg.symm⟩

lemma map_ip_updateVM (vms : List (String × VMRec)) (name : String)
    (f : VMRec → VMRec) (hf : ∀ v, (f v).ip_address = v.ip_address) :
    (updateVM vms name f).map (fun kv => kv.2.ip_address) =
      vms.map (fun kv => kv.2.ip_address) := by
  induction vms with
  | nil => rfl
  | cons kv rest ih =>
    by_cases h : kv.1 = name
    · simp only [updateVM, List.map_cons] at ih ⊢
      rw [if_pos h]
      simp [ih, hf]
    · simp only [updateVM, List.map_cons] at ih ⊢
      rw [if_neg h]
      simp [ih]

lemma filterMap_ipv6_updateVM (vms : List (String × VMRec)) (name : String)
    (f : VMRec → VMRec) (hf : ∀ v, (f v).ipv6_address = v.ipv6_address) :
    (updateVM vms name f).filterMap (fun kv => kv.2.ipv6_address) =
      vms.filterMap (fun kv => kv.2.ipv6_address) := by
  induction vms with
  | nil => rfl
  | cons kv rest ih =>
    simp only [updateVM, List.map_cons] at ih ⊢
    by_cases h : kv.1 = name
    · rw [if_pos h]
      simp only [List.filterMap_cons, hf]
      cases kv.2.ipv6_address <;> simp [ih]
    · rw [if_neg h]
      simp only [List.filterMap_cons]
      cases kv.2.ipv6_address <;> simp [ih]

lemma dbInv_destroy (db : DB) (now name : String) (inv : DbInv db) :
    DbInv (stepOp db (.destroy now name)) := by
  cases hl : List.lookup name db.vms with
  | none =>
    simp only [stepOp, markDestroyedMut, hl, atomicUpdate]
    exact inv
  | some vm =>
    obtain ⟨pre, post, heq, hpre⟩ := lookup_decomp name db.vms vm hl
    have hknd := inv.keysND
    rw [heq] at hknd
    simp only [List.map_append, List.map_cons] at hknd
    rw [List.nodup_append] at hknd
    obtain ⟨hknd1, hknd2, hkdisj⟩ := hknd
    have hpost : ∀ kv ∈ post, kv.1 ≠ name := by
      intro kv hkv hc
      have hmem : name ∈ post.map (fun kv2 => kv2.1) := by
        rw [← hc]
        exact List.mem_map_of_mem _ hkv
      exact (List.nodup_cons.mp hknd2).1 hmem
    have hupd : updateVM db.vms name
        (fun v => { v with status := .destroyed, destroyed_at := some now }) =
        pre ++ (name, { vm with status := .destroyed, destroyed_at := some now }) :: post := by
      rw [heq]
      exact updateVM_decomp _ hpre hpost
    have hrecsplit : recordedIps db = pre.map (fun kv => kv.2.ip_address) ++
        vm.ip_address :: post.map (fun kv => kv.2.ip_address) := by
      rw [recordedIps, heq]
      simp
    have hrec := inv.ipsND
    rw [hrecsplit, List.nodup_append] at hrec
    obtain ⟨hrnd1, hrnd2, hrdisj⟩ := hrec
    have hip_pre : vm.ip_address ∉ pre.map (fun kv => kv.2.ip_address) := by
      intro hm
      exact hrdisj hm (List.mem_cons_self _ _)
    have hip_post : vm.ip_address ∉ post.map (fun kv => kv.2.ip_address) :=
      (List.nodup_cons.mp hrnd2).1
    have hmemdb : (name, vm) ∈ db.vms := by
      rw [heq]
      exact List.mem_append.mpr (Or.inr (List.mem_cons_self _ _))
    have hipvm : vm.ip_address ≠ "" := inv.ipNE (name, vm) hmemdb
    -- invariant parts that do not depend on the released addresses
    have hfK : ((updateVM db.vms name
        (fun v => { v with status := .destroyed, destroyed_at := some now })).map
        (fun kv => kv.1)).Nodup := by
      rw [map_fst_updateVM]
      exact inv.keysND
    have hfI : ((updateVM db.vms name
        (fun v => { v with status := .destroyed, destroyed_at := some now })).map
        (fun kv => kv.2.ip_address)).Nodup := by
      rw [map_ip_updateVM db.vms name
        (fun v => { v with status := .destroyed, destroyed_at := some now }) (fun v => rfl)]
      exact inv.ipsND
    have hfI6 : ((updateVM db.vms name
        (fun v => { v with status := .destroyed, destroyed_at := some now })).filterMap
        (fun kv => kv.2.ipv6_address)).Nodup := by
      rw [filterMap_ipv6_updateVM db.vms name
        (fun v => { v with status := .destroyed, destroyed_at := some now }) (fun v => rfl)]
      exact inv.ip6ND
    have hfNE : ∀ kv ∈ updateVM db.vms name
        (fun v => { v with status := .destroyed, destroyed_at := some now }),
        kv.2.ip_address ≠ "" := by
      intro kv hkv
      obtain ⟨kv0, hkv0, hor⟩ := mem_updateVM hkv
      rcases hor with h1 | h1
      · subst h1
        exact inv.ipNE _ hkv0
      · subst h1
        exact inv.ipNE kv0 hkv0
    have hfNE6 : ∀ kv ∈ updateVM db.vms name
        (fun v => { v with status := .destroyed, destroyed_at := some now }),
        ∀ v, kv.2.ipv6_address = some v → v ≠ "" := by
      intro kv hkv v hv
      obtain ⟨kv0, hkv0, hor⟩ := mem_updateVM hkv
      rcases hor with h1 | h1
      · subst h1
        exact inv.ip6NE _ hkv0 v hv
      · subst h1
        exact inv.ip6NE kv0 hkv0 v hv
    have hsplitD2 : liveIpsL (pre ++
        (name, { vm with status := .destroyed, destroyed_at := some now }) :: post) =
        liveIpsL pre ++ liveIpsL post := by
      simp [liveIpsL, List.filterMap_append, List.filterMap_cons]
    have hsplit6D2 : liveIpv6sL (pre ++
        (name, { vm with status := .destroyed, destroyed_at := some now }) :: post) =
        liveIpv6sL pre ++ liveIpv6sL post := by
      simp [liveIpv6sL, List.filterMap_append, List.filterMap_cons]
    by_cases hdes : vm.status = .destroyed
    · -- already destroyed: nothing is removed and the live sets are unchanged
      have hsplitD : liveIpsL (pre ++ (name, vm) :: post) =
          liveIpsL pre ++ liveIpsL post := by
        simp [liveIpsL, List.filterMap_append, List.filterMap_cons, hdes]
      have hsplit6D : liveIpv6sL (pre ++ (name, vm) :: post) =
          liveIpv6sL pre ++ liveIpv6sL post := by
        simp [liveIpv6sL, List.filterMap_append, List.filterMap_cons, hdes]
      have hipnotin : vm.ip_address ∉ db.allocated_ips := by
        intro hm
        have hxl := (inv.ipEq _).mp hm
        rw [liveIps, heq, hsplitD] at hxl
        rcases List.mem_append.mp hxl with h1 | h2
        · exact hip_pre (liveIpsL_subset _ h1)
        · exact hip_post (liveIpsL_subset _ h2)
      have hfEq : ∀ x, x ∈ db.allocated_ips ↔ x ∈ liveIpsL (updateVM db.vms name
          (fun v => { v with status := .destroyed, destroyed_at := some now })) := by
        intro x
        rw [hupd, hsplitD2]
        have h2 := inv.ipEq x
        rw [liveIps, heq, hsplitD] at h2
        exact h2
      have hfEq6 : ∀ x, x ∈ db.allocated_ipv6 ↔ x ∈ liveIpv6sL (updateVM db.vms name
          (fun v => { v with status := .destroyed, destroyed_at := some now })) := by
        intro x
        rw [hupd, hsplit6D2]
        have h2 := inv.ip6Eq x
        rw [liveIpv6s, heq, hsplit6D] at h2
        exact h2
      have hrem : removeIpv6 db.allocated_ipv6 vm.ipv6_address = db.allocated_ipv6 := by
        cases h6 : vm.ipv6_address with
        | none => rfl
        | some w =>
          have hw6notin : w ∉ db.allocated_ipv6 := by
            intro hm
            have hxl := (inv.ip6Eq _).mp hm
            rw [liveIpv6s, heq, hsplit6D] at hxl
            have hsplit6rec : recordedIpv6s db =
                pre.filterMap (fun kv => kv.2.ipv6_address) ++
                w :: post.filterMap (fun kv => kv.2.ipv6_address) := by
              rw [recordedIpv6s, heq]
              simp [List.filterMap_append, List.filterMap_cons, h6]
            have hrec6 := inv.ip6ND
            rw [hsplit6rec, List.nodup_append] at hrec6
            rcases List.mem_append.mp hxl with h1 | h2
            · exact hrec6.2.2 (liveIpv6sL_subset _ h1) (List.mem_cons_self _ _)
            · exact (List.nodup_cons.mp hrec6.2.1).1 (liveIpv6sL_subset _ h2)
          simp only [removeIpv6]
          rw [if_neg (fun hc => hw6notin hc.2)]
      simp only [stepOp, markDestroyedMut, hl, atomicUpdate]
      rw [if_neg (fun hc => hipnotin hc.2), hrem]
      exact ⟨hfK, hfI, hfI6, inv.allocND, inv.alloc6ND, hfEq, hfEq6, hfNE, hfNE6⟩
    · -- a live record: its addresses are released from the allocation lists
      have hmatch_ip : (match vm.status with
          | VMStatus.destroyed => (none : Option String)
          | _ => some vm.ip_address) = some vm.ip_address := by
        cases hst2 : vm.status with
        | destroyed => exact absurd hst2 hdes
        | active => rfl
        | suspended => rfl
      have hmatch_ip6 : (match vm.status with
          | VMStatus.destroyed => (none : Option String)
          | _ => vm.ipv6_address) = vm.ipv6_address := by
        cases hst2 : vm.status with
        | destroyed => exact absurd hst2 hdes
        | active => rfl
        | suspended => rfl
      have hsplitL : liveIpsL (pre ++ (name, vm) :: post) =
          liveIpsL pre ++ vm.ip_address :: liveIpsL post := by
        simp [liveIpsL, List.filterMap_append, List.filterMap_cons, hmatch_ip]
      have hipin : vm.ip_address ∈ db.allocated_ips := by
        apply (inv.ipEq _).mpr
        rw [liveIps, heq, hsplitL]
        exact List.mem_append.mpr (Or.inr (List.mem_cons_self _ _))
      have hfEq : ∀ x, x ∈ db.allocated_ips.erase vm.ip_address ↔
          x ∈ liveIpsL (updateVM db.vms name
          (fun v => { v with status := .destroyed, destroyed_at := some now })) := by
        intro x
        rw [hupd, hsplitD2, List.Nodup.mem_erase_iff inv.allocND]
        constructor
        · rintro ⟨hxne, hxal⟩
          have hxl := (inv.ipEq x).mp hxal
          rw [liveIps, heq, hsplitL] at hxl
          rcases List.mem_append.mp hxl with h1 | h2
          · exact List.mem_append.mpr (Or.inl h1)
          · rcases List.mem_cons.mp h2 with h3 | h4
            · exact absurd h3 hxne
            · exact List.mem_append.mpr (Or.inr h4)
        · intro hx
          rcases List.mem_append.mp hx with h1 | h2
          · refine ⟨fun hc => hip_pre (hc ▸ liveIpsL_subset x h1), ?_⟩
            apply (inv.ipEq x).mpr
            rw [liveIps, heq, hsplitL]
            exact List.mem_append.mpr (Or.inl h1)
          · refine ⟨fun hc => hip_post (hc ▸ liveIpsL_subset x h2), ?_⟩
            apply (inv.ipEq x).mpr
            rw [liveIps, heq, hsplitL]
            exact List.mem_append.mpr (Or.inr (List.mem_cons_of_mem _ h2))
      simp only [stepOp, markDestroyedMut, hl, atomicUpdate]
      rw [if_pos ⟨hipvm, hipin⟩]
      cases h6 : vm.ipv6_address with
      | none =>
        have hsplit6L : liveIpv6sL (pre ++ (name, vm) :: post) =
            liveIpv6sL pre ++ liveIpv6sL post := by
          simp [liveIpv6sL, List.filterMap_append, List.filterMap_cons, hmatch_ip6, h6]
        have hfEq6 : ∀ x, x ∈ db.allocated_ipv6 ↔ x ∈ liveIpv6sL (updateVM db.vms name
            (fun v => { v with status := .destroyed, destroyed_at := some now })) := by
          intro x
          rw [hupd, hsplit6D2]
          have h2 := inv.ip6Eq x
          rw [liveIpv6s, heq, hsplit6L] at h2
          exact h2
        rw [show removeIpv6 db.allocated_ipv6 none = db.allocated_ipv6 from rfl]
        exact ⟨hfK, hfI, hfI6, inv.allocND.erase _, inv.alloc6ND, hfEq, hfEq6, hfNE, hfNE6⟩
      | some w =>
        have hw6ne : w ≠ "" := inv.ip6NE (name, vm) hmemdb w h6
        have hsplit6rec : recordedIpv6s db = pre.filterMap (fun kv => kv.2.ipv6_address) ++
            w :: post.filterMap (fun kv => kv.2.ipv6_address) := by
          rw [recordedIpv6s, heq]
          simp [List.filterMap_append, List.filterMap_cons, h6]
        have hrec6 := inv.ip6ND
        rw [hsplit6rec, List.nodup_append] at hrec6
        obtain ⟨h6nd1, h6nd2, h6disj⟩ := hrec6
        have hw_pre : w ∉ pre.filterMap (fun kv => kv.2.ipv6_address) := by
          intro hm
          exact h6disj hm (List.mem_cons_self _ _)
        have hw_post : w ∉ post.filterMap (fun kv => kv.2.ipv6_address) :=
          (List.nodup_cons.mp h6nd2).1
        have hsplit6L : liveIpv6sL (pre ++ (name, vm) :: post) =
            liveIpv6sL pre ++ w :: liveIpv6sL post := by
          simp [liveIpv6sL, List.filterMap_append, List.filterMap_cons, hmatch_ip6, h6]
        have hw6in : w ∈ db.allocated_ipv6 := by
          apply (inv.ip6Eq _).mpr
          rw [liveIpv6s, heq, hsplit6L]
          exact List.mem_append.mpr (Or.inr (List.mem_cons_self _ _))
        have hfEq6 : ∀ x, x ∈ db.allocated_ipv6.erase w ↔
            x ∈ liveIpv6sL (updateVM db.vms name
            (fun v => { v with status := .destroyed, destroyed_at := some now })) := by
          intro x
          rw [hupd, hsplit6D2, List.Nodup.mem_erase_iff inv.alloc6ND]
          constructor
          · rintro ⟨hxne, hxal⟩
            have hxl := (inv.ip6Eq x).mp hxal
            rw [liveIpv6s, heq, hsplit6L] at hxl
            rcases List.mem_append.mp hxl with h1 | h2
            · exact List.mem_append.mpr (Or.inl h1)
            · rcases List.mem_cons.mp h2 with h3 | h4
              · exact absurd h3 hxne
              · exact List.mem_append.mpr (Or.inr h4)
          · intro hx
            rcases List.mem_append.mp hx with h1 | h2
            · refine ⟨fun hc => hw_pre (hc ▸ liveIpv6sL_subset x h1), ?_⟩
              apply (inv.ip6Eq x).mpr
              rw [liveIpv6s, heq, hsplit6L]
              exact List.mem_append.mpr (Or.inl h1)
            · refine ⟨fun hc => hw_post (hc ▸ liveIpv6sL_subset x h2), ?_⟩
              apply (inv.ip6Eq x).mpr
              rw [liveIpv6s, heq, hsplit6L]
              exact List.mem_append.mpr (Or.inr (List.mem_cons_of_mem _ h2))
        have hcond6 : w ≠ "" ∧ w ∈ db.allocated_ipv6 := ⟨hw6ne, hw6in⟩
        rw [show removeIpv6 db.allocated_ipv6 (some w) = db.allocated_ipv6.erase w from by
          simp only [removeIpv6]
          rw [if_pos hcond6]]
        exact ⟨hfK, hfI, hfI6, inv.allocND.erase _, inv.alloc6ND.erase _, hfEq, hfEq6,
          hfNE, hfNE6⟩

lemma dbInv_run : ∀ (ops : List LOp) (db : DB), DbInv db →
    regDistinctOk db ops = true → DbInv (runOps db ops) := by
  intro ops
  induction ops with
  | nil =>
    intro db inv _
    exact inv
  | cons op rest ih =>
    intro db inv h
    have hrun : runOps db (op :: rest) = runOps (stepOp db op) rest := rfl
    rw [hrun]
    cases op with
    | reg now ea name vmid ip ipv6 =>
      simp only [regDistinctOk, Bool.and_eq_true, decide_eq_true_eq] at h
      obtain ⟨⟨⟨h1, h2⟩, h3⟩, h4⟩ := h
      refine ih (stepOp db _) (dbInv_reg db now ea name vmid ip ipv6 inv h1 h2 ?_) h4
      intro v hv
      rw [hv] at h3
      simp only [Bool.and_eq_true, decide_eq_true_eq] at h3
      exact h3
    | destroy now name =>
      simp only [regDistinctOk] at h
      exact ih _ (dbInv_destroy db now name inv) h
    | suspend now name =>
      simp [regDistinctOk] at h
    | activate name newExpiry =>
      simp [regDistinctOk] at h

/-- C3 counterexample: two register_vm calls share one IPv4 address; the
deduplicating allocation list holds it once, and destroying the first VM
removes it although the second VM is still active — so allocated_ips is
empty while the live set still contains the address. -/
theorem c3_counterexample :
    (runOps (seededDB none)
      [.reg "t1" "e1" "vm-a" 100 "192.168.122.5" none,
       .reg "t2" "e2" "vm-b" 101 "192.168.122.5" none,
       .destroy "t3" "vm-a"]).allocated_ips = [] ∧
    liveIps (runOps (seededDB none)
      [.reg "t1" "e1" "vm-a" 100 "192.168.122.5" none,
       .reg "t2" "e2" "vm-b" 101 "192.168.122.5" none,
       .destroy "t3" "vm-a"]) = ["192.168.122.5"] :=
  ⟨rfl, rfl⟩

/-- C3 amended: starting from the seeded empty ledger, after every sequence
of register_vm / mark_destroyed transactions in which each registration uses
a nonempty IPv4 address (and nonempty IPv6 address, when given) distinct from
every address already recorded in vms, allocated_ips equals as a set
the ip_address values of the VMs whose status is not destroyed, and
allocated_ipv6 equals the corresponding set of ipv6_address values; with
address sharing the equality fails, as the counterexample shows. -/
theorem c3_amended (rng : Option (Int × Int)) (ops : List LOp)
    (h : regDistinctOk (seededDB rng) ops = true) :
    (∀ x, x ∈ (runOps (seededDB rng) ops).allocated_ips ↔
      x ∈ liveIps (runOps (seededDB rng) ops)) ∧
    (∀ x, x ∈ (runOps (seededDB rng) ops).allocated_ipv6 ↔
      x ∈ liveIpv6s (runOps (seededDB rng) ops)) :=
  have inv := dbInv_run ops (seededDB rng) (dbInv_seeded rng) h
  ⟨inv.ipEq, inv.ip6Eq⟩

/-- Witness for C3 amended on a concrete trace whose registrations all use
fresh nonempty addresses. -/
theorem c3_amended_witness :
    ("10.0.0.9" ∈ (runOps (seededDB none)
      [.reg "t1" "e1" "vm-a" 100 "10.0.0.9" none, .destroy "t2" "vm-a",
       .reg "t3" "e3" "vm-b" 101 "10.0.0.10" (some "fd00::7")]).allocated_ips) ↔
    ("10.0.0.9" ∈ liveIps (runOps (seededDB none)
      [.reg "t1" "e1" "vm-a" 100 "10.0.0.9" none, .destroy "t2" "vm-a",
       .reg "t3" "e3" "vm-b" 101 "10.0.0.10" (some "fd00::7")])) :=
  (c3_amended none
    [.reg "t1" "e1" "vm-a" 100 "10.0.0.9" none, .destroy "t2" "vm-a",
     .reg "t3" "e3" "vm-b" 101 "10.0.0.10" (some "fd00::7")] (by rfl)).1 "10.0.0.9"

end Blockhost
